/-
  Verification of the PasteMD workflow-routing and placement core.

  This file gives a shallow embedding, in Lean 4, of the pure decision logic of
  the PasteMD repository (clipboard guard, content classification, HTML
  plain-fragment heuristic, markdown-file merging, pandoc-conversion routing,
  placement strategies, workflow notification discipline, window-pattern
  routing, and the CF_HTML clipboard payload codec), together with theorems
  settling the specification claims about that logic.

  Conventions:
  * Python `str` values are modelled by Lean `String` where no byte-level
    encoding is involved, and by `List Nat` of Unicode code points where the
    code encodes/decodes bytes (clipboard payloads).
  * `bytes` values are modelled by `List Nat` with every element < 256.
  * Operations of the operating system, of the external pandoc binary and of
    Python library internals that the repository merely calls (subprocess
    execution, clipboard API success/failure, file-system probes) are modelled
    as explicit oracle parameters, so each embedded function is a pure function
    of its inputs and of those oracles.
-/

import Mathlib

set_option maxRecDepth 10000

namespace PasteMD

/-! ## Python string primitives -/

/-- Code points that Python's `str.strip()` (no argument) removes: the Unicode
whitespace set.  Only these code points are treated as whitespace by
`pyStrip`, `pyIsSpace` and friends. -/
def pySpaceCodes : List Nat :=
  [9, 10, 11, 12, 13, 28, 29, 30, 31, 32, 133, 160, 0x1680,
   0x2000, 0x2001, 0x2002, 0x2003, 0x2004, 0x2005, 0x2006, 0x2007,
   0x2008, 0x2009, 0x200A, 0x2028, 0x2029, 0x202F, 0x205F, 0x3000]

/-- Whitespace test on a character (Python `str.isspace` for one char). -/
def pyIsSpace (c : Char) : Bool := pySpaceCodes.contains c.toNat

/-- Python `str.strip()` on a list of characters. -/
def pyStripList (s : List Char) : List Char :=
  ((s.dropWhile pyIsSpace).reverse.dropWhile pyIsSpace).reverse

/-- Python `str.strip()`. -/
def pyStrip (s : String) : String := ⟨pyStripList s.data⟩

/-- Python truthiness of a string (`bool(s)`). -/
def pyTruthy (s : String) : Bool := s ≠ ""

/-- `not s or not s.strip()`: blank-or-empty test used throughout the code. -/
def pyBlank (s : String) : Bool := s == "" || pyStrip s == ""

/-- Substring containment (`needle in haystack` for Python `str`). -/
def pyContains (haystack needle : String) : Bool :=
  let h := haystack.data
  let n := needle.data
  (List.range (h.length + 1)).any fun i => n.isPrefixOf (h.drop i)

/-- ASCII lower-casing of one character (`str.lower` on the characters the
code compares; tag names and configured patterns are ASCII). -/
def pyLowerChar (c : Char) : Char :=
  if 'A' ≤ c ∧ c ≤ 'Z' then Char.ofNat (c.toNat + 32) else c

/-- ASCII upper-casing of one character. -/
def pyUpperChar (c : Char) : Char :=
  if 'a' ≤ c ∧ c ≤ 'z' then Char.ofNat (c.toNat - 32) else c

/-- ASCII `str.lower()`. -/
def pyLower (s : String) : String := ⟨s.data.map pyLowerChar⟩

/-! ## Byte-level codecs

Python strings are sequences of Unicode code points; the clipboard code
encodes them to UTF-8 / UTF-16LE bytes and decodes them back with
`errors='ignore'`.  We model code points as `Nat` and bytes as `Nat < 256`. -/

/-- A valid Unicode scalar value: any code point except the surrogate range. -/
def ValidCp (n : Nat) : Prop := n < 0xD800 ∨ (0xDFFF < n ∧ n < 0x110000)

instance (n : Nat) : Decidable (ValidCp n) := by unfold ValidCp; infer_instance

/-- UTF-8 encoding of one code point. -/
def utf8EncodeChar (n : Nat) : List Nat :=
  if n < 0x80 then [n]
  else if n < 0x800 then [0xC0 + n / 64, 0x80 + n % 64]
  else if n < 0x10000 then
    [0xE0 + n / 4096, 0x80 + (n / 64) % 64, 0x80 + n % 64]
  else
    [0xF0 + n / 262144, 0x80 + (n / 4096) % 64, 0x80 + (n / 64) % 64,
     0x80 + n % 64]

/-- `s.encode("utf-8")`. -/
def utf8Encode (s : List Nat) : List Nat := s.flatMap utf8EncodeChar

/-- UTF-8 continuation byte test. -/
def utf8Cont (b : Nat) : Bool := 0x80 ≤ b && b ≤ 0xBF

/-- One step of UTF-8 decoding: given a lead byte and the next three bytes
(the out-of-range placeholder `0x1FF` stands for "past the end of input" and
fails every continuation test), return the decoded code point (or `none` for
a malformed sequence) and how many of the following bytes were consumed. -/
def utf8Step (b0 b1 b2 b3 : Nat) : Option Nat × Nat :=
  if b0 < 0x80 then (some b0, 0)
  else if 0xC2 ≤ b0 ∧ b0 ≤ 0xDF then
    if 0x80 ≤ b1 ∧ b1 ≤ 0xBF then
      (some ((b0 - 0xC0) * 64 + (b1 - 0x80)), 1)
    else (none, 0)
  else if 0xE0 ≤ b0 ∧ b0 ≤ 0xEF then
    if ((if b0 = 0xE0 then 0xA0 ≤ b1 ∧ b1 ≤ 0xBF
         else if b0 = 0xED then 0x80 ≤ b1 ∧ b1 ≤ 0x9F
         else 0x80 ≤ b1 ∧ b1 ≤ 0xBF) ∧ 0x80 ≤ b2 ∧ b2 ≤ 0xBF) then
      (some ((b0 - 0xE0) * 4096 + (b1 - 0x80) * 64 + (b2 - 0x80)), 2)
    else (none, 0)
  else if 0xF0 ≤ b0 ∧ b0 ≤ 0xF4 then
    if ((if b0 = 0xF0 then 0x90 ≤ b1 ∧ b1 ≤ 0xBF
         else if b0 = 0xF4 then 0x80 ≤ b1 ∧ b1 ≤ 0x8F
         else 0x80 ≤ b1 ∧ b1 ≤ 0xBF) ∧ (0x80 ≤ b2 ∧ b2 ≤ 0xBF) ∧
        (0x80 ≤ b3 ∧ b3 ≤ 0xBF)) then
      (some ((b0 - 0xF0) * 262144 + (b1 - 0x80) * 4096 + (b2 - 0x80) * 64 +
        (b3 - 0x80)), 3)
    else (none, 0)
  else (none, 0)

/-- The decode loop, structurally recursive on a step counter; every step
consumes at least the lead byte, so `l.length` steps always complete. -/
def utf8DecodeLoop : Nat → List Nat → List Nat
  | _, [] => []
  | 0, _ :: _ => []
  | fuel + 1, b0 :: rest =>
    match utf8Step b0 (rest.getD 0 0x1FF) (rest.getD 1 0x1FF)
        (rest.getD 2 0x1FF) with
    | (some c, k) => c :: utf8DecodeLoop fuel (rest.drop k)
    | (none, k) => utf8DecodeLoop fuel (rest.drop k)

/-- `bytes.decode("utf-8", errors="ignore")`: decode well-formed sequences,
skip bytes that do not start a well-formed sequence.  (Python may skip a
malformed multi-byte prefix in one step where this model skips it byte by
byte; both agree on every well-formed sequence, which is the only case the
theorems below depend on.) -/
def utf8DecodeIgnore (l : List Nat) : List Nat := utf8DecodeLoop l.length l

/-- `utf8Step` decodes a 1-byte encoding. -/
theorem utf8Step_enc1 (n b1 b2 b3 : Nat) (h : n < 0x80) :
    utf8Step n b1 b2 b3 = (some n, 0) := by
  rw [utf8Step, if_pos h]

/-- `utf8Step` decodes a 2-byte encoding. -/
theorem utf8Step_enc2 (n b2 b3 : Nat) (h1 : 0x80 ≤ n) (h2 : n < 0x800) :
    utf8Step (0xC0 + n / 64) (0x80 + n % 64) b2 b3 = (some n, 1) := by
  rw [utf8Step, if_neg (by omega), if_pos (by omega), if_pos (by omega)]
  congr 2
  omega

/-- `utf8Step` decodes a 3-byte encoding of a valid code point. -/
theorem utf8Step_enc3 (n b3 : Nat) (h1 : 0x800 ≤ n) (h2 : n < 0x10000)
    (hv : ValidCp n) :
    utf8Step (0xE0 + n / 4096) (0x80 + n / 64 % 64) (0x80 + n % 64) b3
      = (some n, 2) := by
  rw [utf8Step, if_neg (by omega), if_neg (by omega), if_pos (by omega)]
  rw [if_pos ?cond3]
  case cond3 =>
    refine ⟨?_, by omega, by omega⟩
    rcases Nat.lt_or_ge n 0x1000 with hr | hr
    · rw [if_pos (by omega)]; omega
    · rw [if_neg (by omega)]
      rcases Nat.lt_or_ge n 0xD000 with hs | hs
      · rw [if_neg (by omega)]; omega
      · rcases Nat.lt_or_ge n 0xE000 with hu | hu
        · have hs2 : n < 0xD800 := by
            rcases hv with hv | hv
            · omega
            · omega
          rw [if_pos (by omega)]; omega
        · rw [if_neg (by omega)]; omega
  congr 2
  omega

/-- `utf8Step` decodes a 4-byte encoding. -/
theorem utf8Step_enc4 (n : Nat) (h1 : 0x10000 ≤ n) (h2 : n < 0x110000) :
    utf8Step (0xF0 + n / 262144) (0x80 + n / 4096 % 64) (0x80 + n / 64 % 64)
      (0x80 + n % 64) = (some n, 3) := by
  rw [utf8Step, if_neg (by omega), if_neg (by omega), if_neg (by omega),
    if_pos (by omega)]
  rw [if_pos ?cond4]
  case cond4 =>
    refine ⟨?_, ⟨by omega, by omega⟩, by omega, by omega⟩
    rcases Nat.lt_or_ge n 0x40000 with hr | hr
    · rw [if_pos (by omega)]; omega
    · rw [if_neg (by omega)]
      rcases Nat.lt_or_ge n 0x100000 with hs | hs
      · rw [if_neg (by omega)]; omega
      · rw [if_pos (by omega)]; omega
  congr 2
  omega

/-- One loop step decodes one encoded valid code point. -/
theorem utf8DecodeLoop_encodeChar (n : Nat) (h : ValidCp n) (t : List Nat)
    (fuel : Nat) :
    utf8DecodeLoop (fuel + 1) (utf8EncodeChar n ++ t)
      = n :: utf8DecodeLoop fuel t := by
  by_cases ha : n < 0x80
  · rw [utf8EncodeChar, if_pos ha]
    rw [List.cons_append, List.nil_append, utf8DecodeLoop,
      utf8Step_enc1 _ _ _ _ ha]
    show n :: utf8DecodeLoop fuel (List.drop 0 t) = n :: utf8DecodeLoop fuel t
    rw [List.drop_zero]
  · by_cases hb : n < 0x800
    · rw [utf8EncodeChar, if_neg ha, if_pos hb]
      rw [List.cons_append, List.cons_append, List.nil_append,
        utf8DecodeLoop]
      rw [show (((0x80 + n % 64) :: t).getD 0 0x1FF) = 0x80 + n % 64 from rfl,
        utf8Step_enc2 n _ _ (by omega) hb]
      show n :: utf8DecodeLoop fuel (List.drop 1 ((0x80 + n % 64) :: t))
          = n :: utf8DecodeLoop fuel t
      rw [show List.drop 1 ((0x80 + n % 64) :: t) = t from rfl]
    · by_cases hc : n < 0x10000
      · rw [utf8EncodeChar, if_neg ha, if_neg hb, if_pos hc]
        rw [List.cons_append, List.cons_append, List.cons_append,
          List.nil_append, utf8DecodeLoop]
        rw [show (((0x80 + n / 64 % 64) :: (0x80 + n % 64) :: t).getD 0 0x1FF)
            = 0x80 + n / 64 % 64 from rfl]
        rw [show (((0x80 + n / 64 % 64) :: (0x80 + n % 64) :: t).getD 1 0x1FF)
            = 0x80 + n % 64 from rfl]
        rw [utf8Step_enc3 n _ (by omega) hc h]
        show n :: utf8DecodeLoop fuel
            (List.drop 2 ((0x80 + n / 64 % 64) :: (0x80 + n % 64) :: t))
          = n :: utf8DecodeLoop fuel t
        rw [show List.drop 2 ((0x80 + n / 64 % 64) :: (0x80 + n % 64) :: t)
            = t from rfl]
      · have h2 : n < 0x110000 := by rcases h with h | h <;> omega
        rw [utf8EncodeChar, if_neg ha, if_neg hb, if_neg hc]
        rw [List.cons_append, List.cons_append, List.cons_append,
          List.cons_append, List.nil_append, utf8DecodeLoop]
        rw [show (((0x80 + n / 4096 % 64) :: (0x80 + n / 64 % 64) ::
            (0x80 + n % 64) :: t).getD 0 0x1FF) = 0x80 + n / 4096 % 64
            from rfl]
        rw [show (((0x80 + n / 4096 % 64) :: (0x80 + n / 64 % 64) ::
            (0x80 + n % 64) :: t).getD 1 0x1FF) = 0x80 + n / 64 % 64
            from rfl]
        rw [show (((0x80 + n / 4096 % 64) :: (0x80 + n / 64 % 64) ::
            (0x80 + n % 64) :: t).getD 2 0x1FF) = 0x80 + n % 64 from rfl]
        rw [utf8Step_enc4 n (by omega) h2]
        show n :: utf8DecodeLoop fuel (List.drop 3 ((0x80 + n / 4096 % 64) ::
            (0x80 + n / 64 % 64) :: (0x80 + n % 64) :: t))
          = n :: utf8DecodeLoop fuel t
        rw [show List.drop 3 ((0x80 + n / 4096 % 64) :: (0x80 + n / 64 % 64)
            :: (0x80 + n % 64) :: t) = t from rfl]

/-- The loop decodes a whole encoded sequence given enough steps. -/
theorem utf8DecodeLoop_encode : ∀ (s : List Nat), (∀ n ∈ s, ValidCp n) →
    ∀ fuel, s.length ≤ fuel → utf8DecodeLoop fuel (utf8Encode s) = s := by
  intro s
  induction s with
  | nil =>
    intro _ fuel _
    rw [show utf8Encode [] = [] from rfl, utf8DecodeLoop]
  | cons a s ih =>
    intro h fuel hf
    have ha : ValidCp a := h a (by simp)
    have hs : ∀ n ∈ s, ValidCp n := fun n hn => h n (by simp [hn])
    match fuel, hf with
    | f + 1, hf =>
      show utf8DecodeLoop (f + 1) (utf8EncodeChar a ++ utf8Encode s) = a :: s
      rw [utf8DecodeLoop_encodeChar a ha _ f,
        ih hs f (by simp only [List.length_cons] at hf; omega)]

/-- Every code point encodes to at least one byte. -/
theorem utf8EncodeChar_length_pos (n : Nat) :
    1 ≤ (utf8EncodeChar n).length := by
  rw [utf8EncodeChar]
  split_ifs <;> simp

/-- A sequence is no longer than its UTF-8 encoding. -/
theorem length_le_utf8Encode (s : List Nat) :
    s.length ≤ (utf8Encode s).length := by
  induction s with
  | nil => simp [utf8Encode]
  | cons a s ih =>
    show (a :: s).length ≤ (utf8EncodeChar a ++ utf8Encode s).length
    rw [List.length_append, List.length_cons]
    have := utf8EncodeChar_length_pos a
    omega

/-- UTF-8 round-trip on valid code-point sequences. -/
theorem utf8_roundtrip (s : List Nat) (h : ∀ n ∈ s, ValidCp n) :
    utf8DecodeIgnore (utf8Encode s) = s :=
  utf8DecodeLoop_encode s h (utf8Encode s).length (length_le_utf8Encode s)

/-- UTF-16 encoding (little-endian bytes) of one code point. -/
def utf16EncodeChar (n : Nat) : List Nat :=
  if n < 0x10000 then [n % 256, n / 256]
  else
    [(0xD800 + (n - 0x10000) / 1024) % 256, (0xD800 + (n - 0x10000) / 1024) / 256,
     (0xDC00 + (n - 0x10000) % 1024) % 256, (0xDC00 + (n - 0x10000) % 1024) / 256]

/-- `s.encode("utf-16le")`. -/
def utf16leEncode (s : List Nat) : List Nat := s.flatMap utf16EncodeChar

/-- One step of UTF-16 decoding on code units `u` (current) and `v` (next;
the placeholder `0x110000` stands for "past the end").  Returns the decoded
code point (or `none` for a lone surrogate) and how many further units were
consumed. -/
def utf16Step (u v : Nat) : Option Nat × Nat :=
  if u < 0xD800 ∨ 0xDFFF < u then (some u, 0)
  else if u ≤ 0xDBFF then
    if 0xDC00 ≤ v ∧ v ≤ 0xDFFF then
      (some (0x10000 + (u - 0xD800) * 1024 + (v - 0xDC00)), 1)
    else (none, 0)
  else (none, 0)

/-- The UTF-16LE decode loop, structurally recursive on a step counter;
every step consumes at least two bytes, so `l.length` steps always
complete. -/
def utf16DecodeLoop : Nat → List Nat → List Nat
  | _, [] => []
  | _, [_] => []
  | 0, _ :: _ :: _ => []
  | fuel + 1, b0 :: b1 :: rest =>
    match utf16Step (b0 + 256 * b1)
        (rest.getD 0 0 + 256 * rest.getD 1 0x10000) with
    | (some c, k) => c :: utf16DecodeLoop fuel (rest.drop (2 * k))
    | (none, k) => utf16DecodeLoop fuel (rest.drop (2 * k))

/-- `bytes.decode("utf-16le", errors="ignore")`: pairs of bytes form code
units; lone surrogates and trailing odd bytes are dropped. -/
def utf16leDecodeIgnore (l : List Nat) : List Nat :=
  utf16DecodeLoop l.length l

/-- Decoding a surrogate pair written as little-endian bytes. -/
theorem utf16Dec_pair (hi lo : Nat) (hh1 : 0xD800 ≤ hi) (hh2 : hi ≤ 0xDBFF)
    (hl1 : 0xDC00 ≤ lo) (hl2 : lo ≤ 0xDFFF) (t : List Nat) (fuel : Nat) :
    utf16DecodeLoop (fuel + 1)
        (hi % 256 :: hi / 256 :: lo % 256 :: lo / 256 :: t)
      = (0x10000 + (hi - 0xD800) * 1024 + (lo - 0xDC00)) ::
          utf16DecodeLoop fuel t := by
  rw [utf16DecodeLoop]
  simp only [List.getD_cons_succ, List.getD_cons_zero]
  rw [show hi % 256 + 256 * (hi / 256) = hi from by omega]
  rw [show lo % 256 + 256 * (lo / 256) = lo from by omega]
  rw [show utf16Step hi lo
      = (some (0x10000 + (hi - 0xD800) * 1024 + (lo - 0xDC00)), 1) from ?s]
  case s =>
    rw [utf16Step, if_neg (by push_neg; omega), if_pos (by omega),
      if_pos (by omega)]
  show _ :: utf16DecodeLoop fuel (List.drop 2 (lo % 256 :: lo / 256 :: t)) = _
  simp only [List.drop_succ_cons, List.drop_zero]

/-- One loop step decodes one encoded valid code point. -/
theorem utf16DecodeLoop_encodeChar (n : Nat) (h : ValidCp n)
    (t : List Nat) (fuel : Nat) :
    utf16DecodeLoop (fuel + 1) (utf16EncodeChar n ++ t)
      = n :: utf16DecodeLoop fuel t := by
  by_cases ha : n < 0x10000
  · rw [utf16EncodeChar, if_pos ha]
    rw [List.cons_append, List.cons_append, List.nil_append,
      utf16DecodeLoop]
    rw [show n % 256 + 256 * (n / 256) = n from by omega]
    rw [show utf16Step n (t.getD 0 0 + 256 * t.getD 1 0x10000)
        = (some n, 0) from ?step]
    case step =>
      rw [utf16Step, if_pos ?bmp]
      case bmp =>
        rcases h with h | h
        · left; omega
        · right; omega
    show n :: utf16DecodeLoop fuel (List.drop 0 t)
        = n :: utf16DecodeLoop fuel t
    rw [List.drop_zero]
  · have h2 : n < 0x110000 := by rcases h with h | h <;> omega
    rw [utf16EncodeChar, if_neg ha]
    rw [List.cons_append, List.cons_append, List.cons_append,
      List.cons_append, List.nil_append]
    refine (utf16Dec_pair (0xD800 + (n - 0x10000) / 1024)
      (0xDC00 + (n - 0x10000) % 1024) (by omega) (by omega) (by omega)
      (by omega) t fuel).trans ?_
    exact congrArg (fun x => x :: utf16DecodeLoop fuel t) (by omega)

/-- The loop decodes a whole encoded sequence given enough steps. -/
theorem utf16DecodeLoop_encode : ∀ (s : List Nat), (∀ n ∈ s, ValidCp n) →
    ∀ fuel, s.length ≤ fuel → utf16DecodeLoop fuel (utf16leEncode s) = s := by
  intro s
  induction s with
  | nil =>
    intro _ fuel _
    rw [show utf16leEncode [] = [] from rfl, utf16DecodeLoop]
  | cons a s ih =>
    intro h fuel hf
    have ha : ValidCp a := h a (by simp)
    have hs : ∀ n ∈ s, ValidCp n := fun n hn => h n (by simp [hn])
    match fuel, hf with
    | f + 1, hf =>
      show utf16DecodeLoop (f + 1) (utf16EncodeChar a ++ utf16leEncode s)
          = a :: s
      rw [utf16DecodeLoop_encodeChar a ha _ f,
        ih hs f (by simp only [List.length_cons] at hf; omega)]

/-- Every code point encodes to at least one UTF-16LE byte. -/
theorem utf16EncodeChar_length_pos (n : Nat) :
    1 ≤ (utf16EncodeChar n).length := by
  rw [utf16EncodeChar]
  split_ifs <;> simp

/-- A sequence is no longer than its UTF-16LE encoding. -/
theorem length_le_utf16leEncode (s : List Nat) :
    s.length ≤ (utf16leEncode s).length := by
  induction s with
  | nil => simp [utf16leEncode]
  | cons a s ih =>
    show (a :: s).length ≤ (utf16EncodeChar a ++ utf16leEncode s).length
    rw [List.length_append, List.length_cons]
    have := utf16EncodeChar_length_pos a
    omega

/-- UTF-16LE round-trip on valid code-point sequences. -/
theorem utf16_roundtrip (s : List Nat) (h : ∀ n ∈ s, ValidCp n) :
    utf16leDecodeIgnore (utf16leEncode s) = s :=
  utf16DecodeLoop_encode s h (utf16leEncode s).length
    (length_le_utf16leEncode s)

/-- One byte of CP1252 decoding (`errors="ignore"`): bytes `0x80`–`0x9F`
map through the Windows-1252 table (`none` for its five undefined bytes);
all other bytes map to the identical code point. -/
def cp1252MapByte (b : Nat) : Option Nat :=
  if b = 0x80 then some 0x20AC
  else if b = 0x82 then some 0x201A
  else if b = 0x83 then some 0x0192
  else if b = 0x84 then some 0x201E
  else if b = 0x85 then some 0x2026
  else if b = 0x86 then some 0x2020
  else if b = 0x87 then some 0x2021
  else if b = 0x88 then some 0x02C6
  else if b = 0x89 then some 0x2030
  else if b = 0x8A then some 0x0160
  else if b = 0x8B then some 0x2039
  else if b = 0x8C then some 0x0152
  else if b = 0x8E then some 0x017D
  else if b = 0x91 then some 0x2018
  else if b = 0x92 then some 0x2019
  else if b = 0x93 then some 0x201C
  else if b = 0x94 then some 0x201D
  else if b = 0x95 then some 0x2022
  else if b = 0x96 then some 0x2013
  else if b = 0x97 then some 0x2014
  else if b = 0x98 then some 0x02DC
  else if b = 0x99 then some 0x2122
  else if b = 0x9A then some 0x0161
  else if b = 0x9B then some 0x203A
  else if b = 0x9C then some 0x0153
  else if b = 0x9E then some 0x017E
  else if b = 0x9F then some 0x0178
  else if b = 0x81 ∨ b = 0x8D ∨ b = 0x8F ∨ b = 0x90 ∨ b = 0x9D then none
  else some b

/-- `bytes.decode("cp1252", errors="ignore")`. -/
def cp1252DecodeIgnore (bs : List Nat) : List Nat := bs.filterMap cp1252MapByte

/-- `s.rstrip("\0")` on code points: drop trailing NUL code points. -/
def rstripNul (s : List Nat) : List Nat :=
  (s.reverse.dropWhile (· == 0)).reverse

/-- A sequence whose last element is not NUL is unchanged by `rstripNul`. -/
theorem rstripNul_eq_self (s : List Nat) (h : s.getLast? ≠ some 0) :
    rstripNul s = s := by
  rw [rstripNul]
  have : s.reverse.dropWhile (· == 0) = s.reverse := by
    match hs : s.reverse with
    | [] => rfl
    | a :: as =>
      have ha : a ≠ 0 := by
        intro ha0
        apply h
        have : s.getLast? = s.reverse.head? := (List.head?_reverse s).symm
        rw [this, hs, ha0]
        rfl
      rw [List.dropWhile_cons_of_neg (by simpa using ha)]
  rw [this, List.reverse_reverse]

/-! ## Clipboard guard (src/pastemd/utils/win32/clipboard.py)

A clipboard state is an association list from Windows format ids to the
value that `GetClipboardData` returns for that format: a Python `str` for
text formats, a tuple of path strings for `CF_HDROP`, raw `bytes` otherwise.
The win32 API's possible per-call failures are oracle functions `getOk`
(`GetClipboardData` succeeds) and `setOk` (`SetClipboardData` succeeds), and
two flags for the open/empty phases of the two passes. -/

/-- What `GetClipboardData` can hand back for one format. -/
inductive ClipVal where
  | vstr (s : List Nat)
  | vbytes (b : List Nat)
  | vfiles (fs : List (List Nat))
deriving DecidableEq

/-- A clipboard state: format-id/value pairs in enumeration order. -/
abbrev Clipboard : Type := List (Nat × ClipVal)

def CF_TEXT : Nat := 1
def CF_UNICODETEXT : Nat := 13
def CF_HDROP : Nat := 15

/-- First-match association lookup. -/
def alookup {α : Type} : List (Nat × α) → Nat → Option α
  | [], _ => none
  | e :: rest, k => if e.1 = k then some e.2 else alookup rest k

/-- The bytes `_snapshot_clipboard` stores for one clipboard value: `bytes`
kept as is, `str` encoded UTF-16LE, file tuples joined with NUL, encoded
UTF-16LE and double-NUL terminated. -/
def snapClipboardData : ClipVal → List Nat
  | .vbytes b => b
  | .vstr s => utf16leEncode s
  | .vfiles fs => utf16leEncode (List.intercalate [0] fs) ++ [0, 0]

/-- Embedding of `_snapshot_clipboard`: best-effort per format, a format
whose `GetClipboardData` fails is skipped. -/
def _snapshot_clipboard (getOk : Nat → Bool) (clip : Clipboard) :
    List (Nat × List Nat) :=
  clip.filterMap fun e =>
    if getOk e.1 then some (e.1, snapClipboardData e.2) else none

/-- Embedding of `_build_hdrop_data`: a 20-byte `DROPFILES` header
(`pFiles = 20`, zero point, `fNC = 0`, `fWide = 1`) followed by the
UTF-16LE-encoded NUL-joined, double-NUL-terminated path list. -/
def _build_hdrop_data (files : List (List Nat)) : List Nat :=
  [20, 0, 0, 0] ++ [0, 0, 0, 0, 0, 0, 0, 0] ++ [0, 0, 0, 0] ++ [1, 0, 0, 0] ++
    utf16leEncode (List.intercalate [0] files ++ [0, 0])

/-- What `_restore_clipboard` writes back for one snapshotted format:
`CF_UNICODETEXT` is decoded UTF-16LE and NUL-right-stripped, `CF_TEXT` is
decoded CP1252 and NUL-right-stripped, `CF_HDROP` is rebuilt as a
`DROPFILES` structure (skipped when the path list is empty), every other
format is written back as raw bytes. -/
def restoreClipboardEntry (fmt : Nat) (data : List Nat) : Option ClipVal :=
  if fmt = CF_UNICODETEXT then
    some (.vstr (rstripNul (utf16leDecodeIgnore data)))
  else if fmt = CF_TEXT then
    some (.vstr (rstripNul (cp1252DecodeIgnore data)))
  else if fmt = CF_HDROP then
    let files := (List.splitOn 0 (rstripNul (utf16leDecodeIgnore data))).filter
      (fun f => !f.isEmpty)
    if !files.isEmpty then some (.vbytes (_build_hdrop_data files)) else none
  else some (.vbytes data)

/-- Embedding of `_restore_clipboard`: empty the clipboard, then write each
snapshotted format back, best-effort per format (a failing
`SetClipboardData` only loses that one format). -/
def _restore_clipboard (setOk : Nat → Bool) (snap : List (Nat × List Nat)) :
    Clipboard :=
  snap.filterMap fun e =>
    if setOk e.1 then
      (restoreClipboardEntry e.1 e.2).map (fun v => (e.1, v))
    else none

/-- Embedding of the `preserve_clipboard` context manager: snapshot, run the
caller's block (its boolean result records whether it raised), and restore
from the snapshot in the `finally` clause on both exit paths.
`snapPhaseOk` / `restorePhaseOk` model `OpenClipboard`/`EmptyClipboard`
succeeding in the snapshot and restore passes (their failure is caught and
logged).  The `time.sleep` restore delay has no clipboard-state effect and
is not modelled. -/
def preserve_clipboard (getOk setOk : Nat → Bool)
    (snapPhaseOk restorePhaseOk : Bool) (clip : Clipboard)
    (block : Clipboard → Clipboard × Bool) : Clipboard × Bool :=
  let snap := if snapPhaseOk then _snapshot_clipboard getOk clip else []
  let r := block clip
  ((if restorePhaseOk then _restore_clipboard setOk snap else r.1), r.2)

/-- `_snapshot_clipboard` on a cons cell. -/
theorem snapshot_cons (getOk : Nat → Bool) (e : Nat × ClipVal) (rest : Clipboard) :
    _snapshot_clipboard getOk (e :: rest)
      = (if getOk e.1 then [(e.1, snapClipboardData e.2)] else [])
        ++ _snapshot_clipboard getOk rest := by
  rcases hgo : getOk e.1 with _ | _
  · simp [_snapshot_clipboard, List.filterMap_cons, hgo]
  · simp [_snapshot_clipboard, List.filterMap_cons, hgo]

theorem restore_cons (setOk : Nat → Bool) (e : Nat × List Nat)
    (snap : List (Nat × List Nat)) :
    _restore_clipboard setOk (e :: snap)
      = (if setOk e.1 then
          ((restoreClipboardEntry e.1 e.2).map (fun v => (e.1, v))).toList
         else [])
        ++ _restore_clipboard setOk snap := by
  rcases hso : setOk e.1 with _ | _
  · simp [_restore_clipboard, List.filterMap_cons, hso]
  · rcases ho : restoreClipboardEntry e.1 e.2 with _ | v
    · simp [_restore_clipboard, List.filterMap_cons, hso, ho]
    · simp [_restore_clipboard, List.filterMap_cons, hso, ho]

theorem alookup_restore_snapshot (getOk setOk : Nat → Bool) (clip : Clipboard)
    (f : Nat) (hg : getOk f = true) (hs : setOk f = true)
    (htot : ∀ d, (restoreClipboardEntry f d).isSome = true) :
    alookup (_restore_clipboard setOk (_snapshot_clipboard getOk clip)) f
      = (alookup clip f).bind
          (fun v => restoreClipboardEntry f (snapClipboardData v)) := by
  induction clip with
  | nil => rfl
  | cons e rest ih =>
    rw [snapshot_cons]
    by_cases he : e.1 = f
    · rw [he, hg, if_pos rfl, List.singleton_append, restore_cons]
      rw [show (f, snapClipboardData e.2).1 = f from rfl, hs, if_pos rfl]
      rcases ho : restoreClipboardEntry f (snapClipboardData e.2) with _ | v
      · exact absurd (ho ▸ htot (snapClipboardData e.2)) (by simp)
      · simp [alookup, he, ho]
    · rcases hgo : getOk e.1 with _ | _
      · rw [if_neg (by simp), List.nil_append, alookup, if_neg he]
        exact ih
      · rw [if_pos rfl, List.singleton_append, restore_cons]
        rw [show (e.1, snapClipboardData e.2).1 = e.1 from rfl]
        rw [alookup, if_neg he]
        rcases hso : setOk e.1 with _ | _
        · rw [if_neg (by simp), List.nil_append]
          exact ih
        · rw [if_pos rfl]
          rcases ho : restoreClipboardEntry e.1 (snapClipboardData e.2)
              with _ | v
          · rw [Option.map_none', Option.toList_none, List.nil_append]
            exact ih
          · rw [Option.map_some', Option.toList_some, List.singleton_append,
              alookup, if_neg he]
            exact ih

/-- Restoring a snapshotted `CF_UNICODETEXT` value round-trips when the text
is made of valid code points and does not end in NUL. -/
theorem restoreEntry_unicodetext (text : List Nat)
    (hvalid : ∀ n ∈ text, ValidCp n) (hnonul : text.getLast? ≠ some 0) :
    restoreClipboardEntry CF_UNICODETEXT
        (snapClipboardData (ClipVal.vstr text))
      = some (ClipVal.vstr text) := by
  rw [restoreClipboardEntry, if_pos rfl, snapClipboardData,
    utf16_roundtrip text hvalid, rstripNul_eq_self text hnonul]

/-- Restoring a snapshotted registered-format (id `≥ 0xC000`) byte value is
the identity. -/
theorem restoreEntry_registered (fmt : Nat) (hreg : 0xC000 ≤ fmt)
    (b : List Nat) :
    restoreClipboardEntry fmt (snapClipboardData (ClipVal.vbytes b))
      = some (ClipVal.vbytes b) := by
  rw [restoreClipboardEntry, if_neg (by rw [CF_UNICODETEXT]; omega),
    if_neg (by rw [CF_TEXT]; omega), if_neg (by rw [CF_HDROP]; omega)]
  rfl

/-- C1: around any caller block, `preserve_clipboard` restores the
`CF_UNICODETEXT` plain text (byte-equal, given the text from the API is
NUL-free at its end, as `GetClipboardData` guarantees) and the registered
`HTML Format` bytes to their pre-block values; the final state is the
restore of the snapshot on both the normal and the raising exit path and
does not depend on what the block did; and since `setOk` is arbitrary on
all other formats, a failure to restore any other format never blocks these
two.  The restore runs after the fixed delay, which has no state effect. -/
theorem C1_preserve_clipboard_roundtrip
    (clip : Clipboard) (block : Clipboard → Clipboard × Bool)
    (getOk setOk : Nat → Bool) (fmtHtml : Nat) (text hb : List Nat)
    (hg13 : getOk CF_UNICODETEXT = true) (hs13 : setOk CF_UNICODETEXT = true)
    (hgH : getOk fmtHtml = true) (hsH : setOk fmtHtml = true)
    (hreg : 0xC000 ≤ fmtHtml)
    (htext : alookup clip CF_UNICODETEXT = some (ClipVal.vstr text))
    (hvalid : ∀ n ∈ text, ValidCp n)
    (hnonul : text.getLast? ≠ some 0)
    (hhtml : alookup clip fmtHtml = some (ClipVal.vbytes hb)) :
    (alookup (preserve_clipboard getOk setOk true true clip block).1
        CF_UNICODETEXT = some (ClipVal.vstr text)
      ∧ alookup (preserve_clipboard getOk setOk true true clip block).1
          fmtHtml = some (ClipVal.vbytes hb))
    ∧ (preserve_clipboard getOk setOk true true clip block).1
        = _restore_clipboard setOk (_snapshot_clipboard getOk clip) := by
  have hfin : (preserve_clipboard getOk setOk true true clip block).1
      = _restore_clipboard setOk (_snapshot_clipboard getOk clip) := rfl
  refine ⟨⟨?_, ?_⟩, hfin⟩
  · rw [hfin, alookup_restore_snapshot getOk setOk clip CF_UNICODETEXT hg13
      hs13 (fun d => by rw [restoreClipboardEntry, if_pos rfl]; rfl)]
    rw [htext]
    rw [show ((some (ClipVal.vstr text)).bind fun v =>
        restoreClipboardEntry CF_UNICODETEXT (snapClipboardData v))
      = restoreClipboardEntry CF_UNICODETEXT
          (snapClipboardData (ClipVal.vstr text)) from rfl]
    exact restoreEntry_unicodetext text hvalid hnonul
  · rw [hfin, alookup_restore_snapshot getOk setOk clip fmtHtml hgH hsH
      (fun d => by
        rw [restoreClipboardEntry, if_neg (by rw [CF_UNICODETEXT]; omega),
          if_neg (by rw [CF_TEXT]; omega), if_neg (by rw [CF_HDROP]; omega)]
        rfl)]
    rw [hhtml]
    rw [show ((some (ClipVal.vbytes hb)).bind fun v =>
        restoreClipboardEntry fmtHtml (snapClipboardData v))
      = restoreClipboardEntry fmtHtml
          (snapClipboardData (ClipVal.vbytes hb)) from rfl]
    exact restoreEntry_registered fmtHtml hreg hb

/-- Witness for C1 at a concrete clipboard, a block that clobbers the whole
clipboard and reports an exception exit. -/
theorem C1_preserve_clipboard_roundtrip_witness :
    (alookup (preserve_clipboard (fun _ => true) (fun _ => true) true true
        [(CF_UNICODETEXT, ClipVal.vstr [104, 105]),
         (49156, ClipVal.vbytes [60, 98, 62])]
        (fun _ => ([(2, ClipVal.vbytes [9])], true))).1
      CF_UNICODETEXT = some (ClipVal.vstr [104, 105])
    ∧ alookup (preserve_clipboard (fun _ => true) (fun _ => true) true true
        [(CF_UNICODETEXT, ClipVal.vstr [104, 105]),
         (49156, ClipVal.vbytes [60, 98, 62])]
        (fun _ => ([(2, ClipVal.vbytes [9])], true))).1
      49156 = some (ClipVal.vbytes [60, 98, 62])) :=
  (C1_preserve_clipboard_roundtrip
    [(CF_UNICODETEXT, ClipVal.vstr [104, 105]),
     (49156, ClipVal.vbytes [60, 98, 62])]
    (fun _ => ([(2, ClipVal.vbytes [9])], true))
    (fun _ => true) (fun _ => true) 49156 [104, 105] [60, 98, 62]
    rfl rfl rfl rfl (by decide) (by decide) (by decide) (by decide)
    (by decide)).1

/-! ## A small regular-expression engine modelling Python's `re`

The repository uses Python's `re` for fixed patterns (markdown detection,
pandoc output clean-up) and for user-configured window-title patterns.  We
model the library with a backtracking matcher over an explicit syntax tree;
fixed source patterns are transliterated into trees below, and a small
parser covers the dynamic window-pattern subset.  `\\w`/`\\d` are modelled
over ASCII and `\\s` over the Unicode whitespace set; Python additionally
accepts some non-ASCII word/digit characters, which none of the theorems
depend on. -/

/-- One member of a character class. -/
inductive ClsItem where
  | ch (c : Char)
  | range (lo hi : Char)
  | digit
  | word
  | space
deriving DecidableEq

/-- Regular-expression syntax trees.  Counted repetitions are desugared into
`seq`/`opt`/`star` when the trees are built. -/
inductive RE where
  | eps
  | lit (c : Char)
  | anyChar (dotAll : Bool)
  | cls (neg : Bool) (items : List ClsItem)
  | seq (a b : RE)
  | alt (a b : RE)
  | star (lazy : Bool) (a : RE)
  | opt (lazy : Bool) (a : RE)
  | group (idx : Nat) (a : RE)
  | backref (idx : Nat)
  | bol (multi : Bool)
  | eol (multi : Bool)
  | lookNegAhead (c : Char)
  | lookNegBehind (c : Char)
deriving DecidableEq

/-- Character comparison, optionally case-insensitive (`re.IGNORECASE`). -/
def reChars (ic : Bool) (a b : Char) : Bool :=
  if ic then pyLowerChar a == pyLowerChar b else a == b

/-- Does a class item accept a character? -/
def clsItemMatch : ClsItem → Char → Bool
  | .ch c, x => c == x
  | .range lo hi, x => lo.toNat ≤ x.toNat && x.toNat ≤ hi.toNat
  | .digit, x => '0' ≤ x && x ≤ '9'
  | .word, x =>
    ('0' ≤ x && x ≤ '9') || ('a' ≤ x && x ≤ 'z') || ('A' ≤ x && x ≤ 'Z') ||
      x == '_'
  | .space, x => pyIsSpace x

/-- Does a character class accept a character? -/
def clsMatch (ic neg : Bool) (items : List ClsItem) (x : Char) : Bool :=
  let base := fun (y : Char) => items.any (clsItemMatch · y)
  let hit := base x || (ic && (base (pyLowerChar x) || base (pyUpperChar x)))
  if neg then !hit else hit

/-- Captured-group spans, newest first; a later capture of the same group
shadows the earlier one, as in Python. -/
abbrev Groups := List (Nat × (Nat × Nat))

/-- Span of a group, if it has captured. -/
def glookup : Groups → Nat → Option (Nat × Nat)
  | [], _ => none
  | e :: rest, i => if e.1 = i then some e.2 else glookup rest i

/-- Does the slice `s[st:en)` occur again starting at `pos`? -/
def matchSlice (ic : Bool) (s : Array Char) (st en pos : Nat) : Bool :=
  (List.range (en - st)).all fun i =>
    match s.get? (st + i), s.get? (pos + i) with
    | some a, some b => reChars ic a b
    | _, _ => false

/-- The backtracking matcher, in continuation-passing style.  `fuel` bounds
the number of visited states; every fixed-pattern use below supplies ample
fuel for its inputs.  The continuation receives the position after the
current node and the captures so far; the first success wins, giving
Python's leftmost, greedy/lazy backtracking semantics.  A starred body that
consumes nothing is not repeated, matching Python's empty-repeat rule. -/
def reMatch (ic : Bool) (s : Array Char) :
    Nat → RE → Nat → Groups → (Nat → Groups → Option (Nat × Groups)) →
    Option (Nat × Groups)
  | 0, _, _, _, _ => none
  | fuel + 1, re, pos, g, k =>
    match re with
    | .eps => k pos g
    | .lit c =>
      match s.get? pos with
      | some x => if reChars ic c x then k (pos + 1) g else none
      | none => none
    | .anyChar da =>
      match s.get? pos with
      | some x => if da || x != '\n' then k (pos + 1) g else none
      | none => none
    | .cls neg items =>
      match s.get? pos with
      | some x => if clsMatch ic neg items x then k (pos + 1) g else none
      | none => none
    | .seq a b =>
      reMatch ic s fuel a pos g fun p g2 => reMatch ic s fuel b p g2 k
    | .alt a b =>
      match reMatch ic s fuel a pos g k with
      | some r => some r
      | none => reMatch ic s fuel b pos g k
    | .opt lz a =>
      if lz then
        match k pos g with
        | some r => some r
        | none => reMatch ic s fuel a pos g k
      else
        match reMatch ic s fuel a pos g k with
        | some r => some r
        | none => k pos g
    | .star lz a =>
      if lz then
        match k pos g with
        | some r => some r
        | none =>
          reMatch ic s fuel a pos g fun p g2 =>
            if p == pos then none else reMatch ic s fuel (.star lz a) p g2 k
      else
        match reMatch ic s fuel a pos g (fun p g2 =>
            if p == pos then none
            else reMatch ic s fuel (.star lz a) p g2 k) with
        | some r => some r
        | none => k pos g
    | .group i a =>
      reMatch ic s fuel a pos g fun p g2 => k p ((i, (pos, p)) :: g2)
    | .backref i =>
      match glookup g i with
      | none => none
      | some (st, en) =>
        if matchSlice ic s st en pos then k (pos + (en - st)) g else none
    | .bol multi =>
      if pos == 0 || (multi && s.get? (pos - 1) == some '\n') then k pos g
      else none
    | .eol multi =>
      if pos == s.size || (multi && s.get? pos == some '\n') ||
          (!multi && pos + 1 == s.size && s.get? pos == some '\n') then
        k pos g
      else none
    | .lookNegAhead c =>
      match s.get? pos with
      | some x => if reChars ic c x then none else k pos g
      | none => k pos g
    | .lookNegBehind c =>
      if pos == 0 then k pos g
      else
        match s.get? (pos - 1) with
        | some x => if reChars ic c x then none else k pos g
        | none => k pos g

/-- Fuel given to the matcher: generous for every input in this file. -/
def reFuel : Nat := 1000000

/-- `re.search`: try every start position left to right; returns
`(start, end, captures)` of the first match. -/
def reSearch (ic : Bool) (re : RE) (s : List Char) :
    Option (Nat × Nat × Groups) :=
  let arr := s.toArray
  (List.range (s.length + 1)).findSome? fun st =>
    (reMatch ic arr reFuel re st [] fun p g => some (p, g)).map
      fun r => (st, r)

/-- `bool(re.search(...))`. -/
def reTest (ic : Bool) (re : RE) (s : String) : Bool :=
  (reSearch ic re s.data).isSome

/-- A replacement template: literal chunks and group references. -/
abbrev Repl := List (List Char ⊕ Nat)

/-- Expand a replacement template against the subject and captures. -/
def replExpand (s : List Char) (g : Groups) (repl : Repl) : List Char :=
  repl.flatMap fun part =>
    match part with
    | .inl chunk => chunk
    | .inr i =>
      match glookup g i with
      | some (st, en) => (s.drop st).take (en - st)
      | none => []

/-- One pass of `re.sub` from a given position, with a step counter for
termination; follows Python's rule for empty matches (insert the
replacement, copy one character, continue). -/
def reSubFrom (ic : Bool) (re : RE) (repl : Repl) (s : List Char) :
    Nat → Nat → List Char
  | 0, pos => s.drop pos
  | steps + 1, pos =>
    let arr := s.toArray
    let found := (List.range (s.length + 1 - pos)).findSome? fun d =>
      (reMatch ic arr reFuel re (pos + d) [] fun p g => some (p, g)).map
        fun r => (pos + d, r)
    match found with
    | none => s.drop pos
    | some (st, en, g) =>
      let between := (s.drop pos).take (st - pos)
      let rep := replExpand s g repl
      if en > st then
        between ++ rep ++ reSubFrom ic re repl s steps en
      else if st < s.length then
        between ++ rep ++ ((s.drop st).take 1) ++
          reSubFrom ic re repl s steps (st + 1)
      else
        between ++ rep

/-- `re.sub(pattern, repl, s)`. -/
def reSub (ic : Bool) (re : RE) (repl : Repl) (s : List Char) : List Char :=
  reSubFrom ic re repl s (s.length + 1) 0

/-- Sequence a list of trees. -/
def reSeqList : List RE → RE
  | [] => .eps
  | [r] => r
  | r :: rest => .seq r (reSeqList rest)

/-- A literal string pattern. -/
def reStr (s : String) : RE := reSeqList (s.data.map RE.lit)

/-- `r+`. -/
def rePlus (lz : Bool) (a : RE) : RE := .seq a (.star lz a)

/-- `r{0,n}` (greedy prefers more copies, as in Python). -/
def reRepUpTo (lz : Bool) (a : RE) : Nat → RE
  | 0 => .eps
  | n + 1 => .opt lz (.seq a (reRepUpTo lz a n))

/-- The backtick character (avoiding a backtick literal in source). -/
def backtick : Char := Char.ofNat 96

/-- `\s` as a class. -/
def wsRE : RE := .cls false [.space]

/-! ## Markdown heuristics (src/pastemd/utils/markdown_utils.py) -/

/-- The fenced-code-block pattern
`^\s{0,3}(B{3,})[^\n]*\n[\s\S]*?\n^\s{0,3}\1\s*$` (MULTILINE; `B` stands for
a backtick), requiring an opening fence and a closing fence with the same
backtick run. -/
def fencedCodeRE : RE :=
  reSeqList [
    .bol true,
    reRepUpTo false wsRE 3,
    .group 1 (reSeqList [.lit backtick, .lit backtick, .lit backtick,
      .star false (.lit backtick)]),
    .star false (.cls true [.ch '\n']),
    .lit '\n',
    .star true (.anyChar true),
    .lit '\n',
    .bol true,
    reRepUpTo false wsRE 3,
    .backref 1,
    .star false wsRE,
    .eol true]

/-- Embedding of `has_backtick_fenced_code_block`. -/
def has_backtick_fenced_code_block (text : String) : Bool :=
  if text == "" then false
  else reTest false fencedCodeRE text

/-- `\$\$[\s\S]*?\$\$`. -/
def latexBlockDollarRE : RE :=
  reSeqList [.lit '$', .lit '$', .star true (.anyChar true), .lit '$',
    .lit '$']

/-- `\\\[[\s\S]*?\\\]`. -/
def latexBlockBracketRE : RE :=
  reSeqList [.lit '\\', .lit '[', .star true (.anyChar true), .lit '\\',
    .lit ']']

/-- `\\\([^\n]*?\\\)`. -/
def latexInlineParenRE : RE :=
  reSeqList [.lit '\\', .lit '(', .star true (.cls true [.ch '\n']),
    .lit '\\', .lit ')']

/-- `(?<!\$)\$(?!\$)[^\n$]+(?<!\$)\$(?!\$)`. -/
def latexInlineDollarRE : RE :=
  reSeqList [.lookNegBehind '$', .lit '$', .lookNegAhead '$',
    rePlus false (.cls true [.ch '\n', .ch '$']),
    .lookNegBehind '$', .lit '$', .lookNegAhead '$']

/-- Embedding of `has_latex_math`: block `$$…$$`, block `\[…\]`, inline
`\(…\)`, then inline `$…$`. -/
def has_latex_math (text : String) : Bool :=
  if text == "" then false
  else if reTest false latexBlockDollarRE text then true
  else if reTest false latexBlockBracketRE text then true
  else if reTest false latexInlineParenRE text then true
  else if reTest false latexInlineDollarRE text then true
  else false

/-- `^\s{0,3}#{1,6}\s+` (MULTILINE). -/
def mdPatternHeading : RE :=
  reSeqList [.bol true, reRepUpTo false wsRE 3,
    .seq (.lit '#') (reRepUpTo false (.lit '#') 5), rePlus false wsRE]

/-- `\[.+?\]\(.+?\)`. -/
def mdPatternLink : RE :=
  reSeqList [.lit '[', rePlus true (.anyChar false), .lit ']', .lit '(',
    rePlus true (.anyChar false), .lit ')']

/-- `^\s*[-*+]\s+` (MULTILINE). -/
def mdPatternBullet : RE :=
  reSeqList [.bol true, .star false wsRE,
    .cls false [.ch '-', .ch '*', .ch '+'], rePlus false wsRE]

/-- `^\s*\d+\.\s+` (MULTILINE). -/
def mdPatternOrdered : RE :=
  reSeqList [.bol true, .star false wsRE, rePlus false (.cls false [.digit]),
    .lit '.', rePlus false wsRE]

/-- `^>\s+` (MULTILINE). -/
def mdPatternQuote : RE :=
  reSeqList [.bol true, .lit '>', rePlus false wsRE]

/-- Inline code: a backtick, one or more non-backticks, a backtick. -/
def mdPatternCode : RE :=
  reSeqList [.lit backtick, rePlus false (.cls true [.ch backtick]),
    .lit backtick]

/-- `!\[.*?\]\(.+?\)`. -/
def mdPatternImage : RE :=
  reSeqList [.lit '!', .lit '[', .star true (.anyChar false), .lit ']',
    .lit '(', rePlus true (.anyChar false), .lit ')']

/-- `(\*\*|__).+?(\*\*|__)`. -/
def mdPatternBold : RE :=
  reSeqList [.group 1 (.alt (reStr "**") (reStr "__")),
    rePlus true (.anyChar false),
    .group 2 (.alt (reStr "**") (reStr "__"))]

/-- `(\*|_).+?(\*|_)`. -/
def mdPatternItalic : RE :=
  reSeqList [.group 1 (.alt (.lit '*') (.lit '_')),
    rePlus true (.anyChar false),
    .group 2 (.alt (.lit '*') (.lit '_'))]

/-- The `md_patterns` list of `is_markdown`, in source order. -/
def md_patterns : List RE :=
  [mdPatternHeading, mdPatternLink, mdPatternBullet, mdPatternOrdered,
   mdPatternQuote, mdPatternCode, mdPatternImage, mdPatternBold,
   mdPatternItalic]

/-- Embedding of `is_markdown`: fenced code block, then LaTeX math, then the
fixed Markdown pattern list. -/
def is_markdown (text : String) : Bool :=
  if text == "" then false
  else if has_backtick_fenced_code_block text then true
  else if has_latex_math text then true
  else md_patterns.any fun p => reTest false p text

/-! ## HTML analyzer (src/pastemd/utils/html_analyzer.py)

`is_plain_html_fragment` parses the fragment with BeautifulSoup and walks
the resulting tree.  The parser is an external library; we model its output
directly: an `HNode` tree (element name, `class` attribute list, children,
text nodes).  The analyzer functions below mirror the source's walks over
that tree; `soup.body or soup` picks the first `<body>` element when the
parser produced one. -/

mutual

/-- A parsed HTML node: an element with its `class` attribute and children,
or a text node. -/
inductive HNode where
  | elem (name : String) (classes : List String) (children : HForest)
  | text (s : String)

/-- A list of parsed nodes, as a mutual type so that the tree walks below
are plain structural recursions. -/
inductive HForest where
  | nil
  | cons (h : HNode) (t : HForest)

end

mutual

/-- All elements (name, classes) of a node in document order
(`find_all(True)` order). -/
def elemsOf : HNode → List (String × List String)
  | .elem n cs ch => (n, cs) :: elemsOfForest ch
  | .text _ => []

/-- All elements of a forest in document order. -/
def elemsOfForest : HForest → List (String × List String)
  | .nil => []
  | .cons x t => elemsOf x ++ elemsOfForest t

end

mutual

/-- The first `<body>` element of a node (`soup.body`). -/
def findBodyNode : HNode → Option HNode
  | .elem n cs ch =>
    if n = "body" then some (.elem n cs ch) else findBodyForest ch
  | .text _ => none

/-- The first `<body>` element of a forest. -/
def findBodyForest : HForest → Option HNode
  | .nil => none
  | .cons x t =>
    match findBodyNode x with
    | some b => some b
    | none => findBodyForest t

end

mutual

/-- All text-node strings of a node in document order. -/
def textsOf : HNode → List String
  | .elem _ _ ch => textsOfForest ch
  | .text s => [s]

/-- All text-node strings of a forest in document order. -/
def textsOfForest : HForest → List String
  | .nil => []
  | .cons x t => textsOf x ++ textsOfForest t

end

/-- The elements the analyzer scans: `(soup.body or soup).find_all(True)` —
the descendants of the first `<body>` element when one exists, all elements
of the document otherwise. -/
def docElems (doc : HForest) : List (String × List String) :=
  match findBodyForest doc with
  | some (.elem _ _ ch) => elemsOfForest ch
  | _ => elemsOfForest doc

/-- `(soup.body or soup).get_text(separator="\n")`: all text-node strings
joined with newlines. -/
def docGetText (doc : HForest) : String :=
  String.intercalate "\n" <|
    match findBodyForest doc with
    | some (.elem _ _ ch) => textsOfForest ch
    | _ => textsOfForest doc

/-- The fixed semantic/block-structural tag set `SEMANTIC_TAGS`. -/
def SEMANTIC_TAGS : List String :=
  ["p", "h1", "h2", "h3", "h4", "h5", "h6", "ul", "ol", "li", "dl", "dt",
   "dd", "table", "thead", "tbody", "tfoot", "tr", "th", "td", "col",
   "colgroup", "pre", "code", "blockquote", "figure", "figcaption", "math",
   "section", "article", "header", "footer", "aside", "nav", "hr"]

/-- The inline-wrapper tag set `INLINE_WRAPPER_TAGS`. -/
def INLINE_WRAPPER_TAGS : List String :=
  ["span", "font", "strong", "em", "b", "i", "u", "sub", "sup", "s", "del",
   "mark", "a"]

/-- The wrapper tags `_only_contains_inline_wrappers` skips. -/
def wrapperSkipTags : List String := ["html", "head", "body", "meta", "style"]

/-- The fixed Markdown syntax hints `MARKDOWN_HINTS`, in source order. -/
def MARKDOWN_HINTS : List String :=
  ["\n#", "\n##", "\n- ", "\n* ", "\n1.", "```", "**", "__", "~~", "> ",
   "$$", "\\(", "\\)", "|", "\n---", "\n***", "`"]

/-- Embedding of `_count_semantic_tags`. -/
def _count_semantic_tags (doc : HForest) : Nat :=
  (docElems doc).countP fun e => SEMANTIC_TAGS.contains (pyLower e.1)

/-- Embedding of `_only_contains_inline_wrappers`. -/
def _only_contains_inline_wrappers (doc : HForest) : Bool :=
  (docElems doc).all fun e =>
    wrapperSkipTags.contains (pyLower e.1) ||
      INLINE_WRAPPER_TAGS.contains (pyLower e.1)

/-- Embedding of `_markdown_hint_score`. -/
def _markdown_hint_score (text : String) : Nat :=
  MARKDOWN_HINTS.countP fun h => pyContains text h

/-- Embedding of `_has_yuanbao_formula_tags`: some element of the whole
document carries one of the Yuanbao marker classes. -/
def _has_yuanbao_formula_tags (doc : HForest) : Bool :=
  ["ybc-markdown-katex", "ybc-pre-component", "ybc-p", "ybc-ul-component",
   "ybc-ol-component"].any fun cn =>
    (elemsOfForest doc).any fun e => e.2.contains cn

/-- The Yuanbao special case at the top of `is_plain_html_fragment`: the raw
fragment mentions `ybc`, the tree carries a Yuanbao formula class, and the
clipboard's plain text (when readable: `none` models a raised, caught
`ClipboardError`) is non-empty and detected as Markdown. -/
def yuanbaoTextOverride (raw : String) (doc : HForest)
    (clipText : Option String) : Bool :=
  pyContains raw "ybc" && _has_yuanbao_formula_tags doc &&
    (match clipText with
     | some t => pyTruthy t && is_markdown t
     | none => false)

/-- Embedding of `is_plain_html_fragment raw` where `doc` is the
BeautifulSoup parse of `raw` and `clipText` the clipboard plain text read
inside the Yuanbao branch: blank fragments are plain; the Yuanbao override
forces plain; any semantic tag means not plain; only inline wrappers means
plain; otherwise plain iff the visible text scores at least two Markdown
hints (or is blank). -/
def is_plain_html_fragment (raw : String) (doc : HForest)
    (clipText : Option String) : Bool :=
  if pyBlank raw then true
  else if yuanbaoTextOverride raw doc clipText then true
  else if _count_semantic_tags doc > 0 then false
  else if _only_contains_inline_wrappers doc then true
  else
    let text := pyStrip (docGetText doc)
    if !pyTruthy text then true
    else _markdown_hint_score text ≥ 2

/-- No wrapper-skip tag is in the semantic set. -/
theorem skip_not_semantic :
    ∀ x ∈ wrapperSkipTags, x ∉ SEMANTIC_TAGS := by decide

/-- No inline-wrapper tag is in the semantic set. -/
theorem inline_not_semantic :
    ∀ x ∈ INLINE_WRAPPER_TAGS, x ∉ SEMANTIC_TAGS := by decide

/-- C3 (amended): a non-blank fragment whose scanned elements include at
least one semantic/block tag is never classified as plain, provided the
Yuanbao override (a `ybc`-marked fragment whose clipboard text reads as
Markdown) does not fire — regardless of how many Markdown hints its visible
text contains. -/
theorem C3_semantic_tag_means_not_plain (raw : String) (doc : HForest)
    (clipText : Option String)
    (hnb : pyBlank raw = false)
    (hsem : (docElems doc).any
      (fun e => SEMANTIC_TAGS.contains (pyLower e.1)) = true)
    (hybc : yuanbaoTextOverride raw doc clipText = false) :
    is_plain_html_fragment raw doc clipText = false := by
  rw [is_plain_html_fragment, if_neg (by simp [hnb]), if_neg (by simp [hybc]),
    if_pos ?pos]
  case pos =>
    rw [_count_semantic_tags]
    show 0 < _
    rw [List.countP_pos_iff]
    simpa using List.any_eq_true.mp hsem

/-- Witness for the amended C3 at a concrete fragment: a bare `<table>`
whose visible text carries several Markdown hints. -/
theorem C3_semantic_tag_means_not_plain_witness :
    is_plain_html_fragment "<table><tr><td>**a** | `b`</td></tr></table>"
      (HForest.cons (HNode.elem "table" []
        (HForest.cons (HNode.elem "tr" []
          (HForest.cons (HNode.elem "td" []
            (HForest.cons (HNode.text "**a** | `b`") HForest.nil))
            HForest.nil)) HForest.nil)) HForest.nil) none = false :=
  C3_semantic_tag_means_not_plain _ _ _ (by decide) (by decide) (by decide)

/-- C3 counterexample: the claim as stated fails on the code.  This fragment
contains a `<p>` tag — a member of the semantic set — yet
`is_plain_html_fragment` returns `true`, because the fragment carries a
Yuanbao formula class, and the clipboard text `$a+b$` is detected as
Markdown, so the Yuanbao branch returns early. -/
theorem C3_counterexample_yuanbao_fragment :
    (SEMANTIC_TAGS.contains "p" = true) ∧
    ((docElems (HForest.cons (HNode.elem "p" ["ybc-p"]
        (HForest.cons (HNode.text "$x$") HForest.nil)) HForest.nil)).any
      (fun e => SEMANTIC_TAGS.contains (pyLower e.1)) = true) ∧
    is_plain_html_fragment "<p class=\"ybc-p\">$x$</p>"
      (HForest.cons (HNode.elem "p" ["ybc-p"]
        (HForest.cons (HNode.text "$x$") HForest.nil)) HForest.nil)
      (some "$a+b$") = true := by
  refine ⟨by decide, by decide, by decide⟩

/-- C4: a non-blank fragment whose scanned elements all carry inline-wrapper
names (ignoring the html/head/body/meta/style wrappers) is always classified
as plain (Markdown in disguise). -/
theorem C4_inline_wrappers_means_plain (raw : String) (doc : HForest)
    (clipText : Option String)
    (hnb : pyBlank raw = false)
    (htags : ∀ e ∈ docElems doc,
      pyLower e.1 ∈ wrapperSkipTags ∨ pyLower e.1 ∈ INLINE_WRAPPER_TAGS) :
    is_plain_html_fragment raw doc clipText = true := by
  rw [is_plain_html_fragment, if_neg (by simp [hnb])]
  by_cases hov : yuanbaoTextOverride raw doc clipText = true
  · rw [if_pos hov]
  · rw [if_neg hov]
    have hcnt : _count_semantic_tags doc = 0 := by
      rw [_count_semantic_tags, List.countP_eq_zero]
      intro e he
      rcases htags e he with h | h
      · simpa using skip_not_semantic (pyLower e.1) h
      · simpa using inline_not_semantic (pyLower e.1) h
    have hinl : _only_contains_inline_wrappers doc = true := by
      rw [_only_contains_inline_wrappers, List.all_eq_true]
      intro e he
      rcases htags e he with h | h
      · have hx : wrapperSkipTags.contains (pyLower e.1) = true :=
          List.elem_eq_true_of_mem h
        rw [hx]
        rfl
      · have hx : INLINE_WRAPPER_TAGS.contains (pyLower e.1) = true :=
          List.elem_eq_true_of_mem h
        rw [hx, Bool.or_true]
    rw [if_neg (by omega), if_pos hinl]

/-- Witness for C4 at a concrete span-wrapped Markdown fragment. -/
theorem C4_inline_wrappers_means_plain_witness :
    is_plain_html_fragment "<span style=\"color:red\">**bold**</span>"
      (HForest.cons (HNode.elem "span" []
        (HForest.cons (HNode.text "**bold**") HForest.nil)) HForest.nil)
      none = true :=
  C4_inline_wrappers_means_plain _ _ _ (by decide) (by decide)

/-! ## `merge_markdown_contents` (src/pastemd/utils/markdown_utils.py) -/

/-- Embedding of `merge_markdown_contents(files_data)`: a single file's content
is returned unchanged; otherwise each file contributes a
`<!-- Source: name -->` comment line, its stripped content and a blank
separator line, all joined with newlines. -/
def merge_markdown_contents (files_data : List (String × String)) : String :=
  if files_data.length == 1 then
    (files_data.headD ("", "")).2
  else
    String.intercalate "\n" <|
      files_data.flatMap fun p =>
        ["<!-- Source: " ++ p.1 ++ " -->", pyStrip p.2, ""]

/-- C5: the two-file merge produces exactly the documented string, and a
single-file merge returns the content unchanged with no comment wrapper. -/
theorem C5_merge_markdown_contents (name content : String) :
    merge_markdown_contents [("a.md", "Hello"), ("b.md", "World")] =
      "<!-- Source: a.md -->\nHello\n\n<!-- Source: b.md -->\nWorld\n" ∧
    merge_markdown_contents [(name, content)] = content := by
  constructor
  · decide
  · rfl

/-! ## Paste workflow orchestration
(src/pastemd/app/workflows/paste_workflow.py and
src/pastemd/app/workflows/fallback/fallback_workflow.py)

The workflow code is an orchestration layer over OS and subprocess effects.
The embedding threads those effects through an explicit environment `WfEnv`
of oracle values: one field per effectful call site, fixed for the single
hotkey press being modelled.  Functions whose defining modules are absent
from the source snapshot (`parse_markdown_table` from
`domains/spreadsheet/parser`, `normalize_markdown` from
`utils/md_normalizer`, `convert_latex_delimiters` from `utils/latex`) enter
the environment as abstract function parameters, so every theorem below is
quantified over their behaviour.  The observable output of a run is the
ordered list of notification i18n keys passed to
`notification_manager.notify`. -/

/-- Python exception classes the workflow handlers distinguish:
`ClipboardError`, `PandocError`, `InsertError` and any other `Exception`. -/
inductive PyErr where
  | clipboard
  | pandoc
  | insert
  | other
deriving DecidableEq

/-- Outcome of `inserter.insert(table_data, ...)` in the Excel flow: a
returned boolean, a raised `InsertError`, or another raised exception. -/
inductive InsertOutcome where
  | ok (b : Bool)
  | insertErr
  | otherErr
deriving DecidableEq

/-- The configuration keys that steer the control flow modelled here
(`config.get("enable_excel", True)`, `config.get("keep_file", False)`,
`config.get("auto_open_on_no_app", True)`). -/
structure WfConfig where
  enable_excel : Bool
  keep_file : Bool
  auto_open_on_no_app : Bool

/-- Oracle environment for one hotkey press: the result of every effectful
call the workflow makes.  `get_clipboard_html` is `Except.error ()` when the
read raises `ClipboardError`; `htmlDoc` is the BeautifulSoup parse of the
HTML fragment and `htmlClipText` the plain text read inside the Yuanbao
branch of `is_plain_html_fragment`; `pandocOk` is whether
`_ensure_pandoc_integration` ends with an integration (on failure it has
already notified `workflow.pandoc.init_failed`); `word_insert_ok` is the
boolean result of `_perform_word_insertion` (which folds `InsertError` to
`False`); `save_ok` models the file write, `open_ok` the
`AppLauncher.awaken_and_open_document` call and `sheet_gen` the
`AppLauncher.generate_and_open_spreadsheet` call. -/
structure WfEnv where
  is_clipboard_empty : Bool
  is_clipboard_html : Bool
  get_clipboard_html : Except Unit String
  htmlDoc : HForest
  htmlClipText : Option String
  detect_active_app : String
  get_clipboard_text : String
  md_files : Option (List (String × String))
  parse_markdown_table : String → Option (List (List String))
  normalize_markdown : String → String
  convert_latex_delimiters : String → String
  pandocOk : Bool
  convert_to_docx_bytes : Except PyErr Unit
  convert_html_to_docx_bytes : Except PyErr Unit
  word_insert_ok : Bool
  excel_insert : InsertOutcome
  save_ok : Bool
  open_ok : Bool
  sheet_gen : Except PyErr Bool

/-- Python `md_text.count(chr 10)`: the number of newline characters. -/
def pyCountNl (s : String) : Nat := s.data.countP (· == '\n')

/-- Truthiness of a `parse_markdown_table` result (`if table_data:`): a
parsed table is truthy when it is not `None` and not the empty list. -/
def tableTruthy : Option (List (List String)) → Bool
  | some rows => !rows.isEmpty
  | none => false

/-- A flow run: the notification keys it emits, in order, and the exception
escaping it to `execute`'s handlers, if any. -/
abbrev FlowRun := List String × Option PyErr

/-- Embedding of `PasteWorkflow._handle_excel_flow`: an unparsable table
notifies `workflow.table.invalid_with_app`; a successful insert notifies
success; an insert returning `False` emits NOTHING (silent path); a raised
`InsertError` notifies `workflow.table.insert_failed`; any other exception
escapes the flow. -/
def _handle_excel_flow (env : WfEnv) (md_text : String) : FlowRun :=
  match env.parse_markdown_table md_text with
  | none => (["workflow.table.invalid_with_app"], none)
  | some _ =>
    match env.excel_insert with
    | .ok true => (["workflow.table.insert_success"], none)
    | .ok false => ([], none)
    | .insertErr => (["workflow.table.insert_failed"], none)
    | .otherErr => ([], some .other)

/-- Embedding of `PasteWorkflow._handle_word_flow`: normalize and convert
LaTeX delimiters, emit `workflow.markdown.conversion_started` when the line
count reaches 100, stop after `workflow.pandoc.init_failed` when pandoc is
unavailable, let conversion errors escape, notify
`workflow.document.save_failed` when a requested keep-file save fails, and
always end with the `_show_word_result` notification. -/
def _handle_word_flow (env : WfEnv) (config : WfConfig) (md_text : String) :
    FlowRun :=
  let md1 := env.convert_latex_delimiters (env.normalize_markdown md_text)
  let pre : List String :=
    if 100 ≤ pyCountNl md1 + 1 then ["workflow.markdown.conversion_started"]
    else []
  if !env.pandocOk then (pre ++ ["workflow.pandoc.init_failed"], none)
  else
    match env.convert_to_docx_bytes with
    | .error e => (pre, some e)
    | .ok _ =>
      let save : List String :=
        if config.keep_file && !env.save_ok then
          ["workflow.document.save_failed"]
        else []
      (pre ++ save ++
        [if env.word_insert_ok then "workflow.word.insert_success"
         else "workflow.insert_failed_no_app"], none)

/-- Embedding of `PasteWorkflow._handle_html_to_word_flow`: every failure is
caught inside the flow (`ClipboardError`, `PandocError`, `Exception` each
notify a distinct key); a keep-file save failure is only logged; the flow
ends with the insert-result notification. -/
def _handle_html_to_word_flow (env : WfEnv) (html_text : Option String) :
    FlowRun :=
  let readHtml : Except Unit String :=
    match html_text with
    | some h => .ok h
    | none => env.get_clipboard_html
  match readHtml with
  | .error _ => (["workflow.html.clipboard_failed"], none)
  | .ok _ =>
    if !env.pandocOk then (["workflow.pandoc.init_failed"], none)
    else
      match env.convert_html_to_docx_bytes with
      | .error .clipboard => (["workflow.html.clipboard_failed"], none)
      | .error .pandoc => (["workflow.html.convert_failed_format"], none)
      | .error _ => (["workflow.html.convert_failed_generic"], none)
      | .ok _ =>
        ([if env.word_insert_ok then "workflow.html.insert_success"
          else "workflow.insert_failed_no_app"], none)

/-- Embedding of `PasteWorkflow._generate_and_open_document`: all failures
are caught inside (`PandocError` notifies `workflow.markdown.convert_failed`,
any other exception `workflow.document.generate_failed`), the large-input
notification precedes them, and the open result is notified at the end. -/
def _generate_and_open_document (env : WfEnv) (md_text : String) : FlowRun :=
  let md1 := env.convert_latex_delimiters (env.normalize_markdown md_text)
  let pre : List String :=
    if 100 ≤ pyCountNl md1 + 1 then ["workflow.markdown.conversion_started"]
    else []
  if !env.pandocOk then (pre ++ ["workflow.pandoc.init_failed"], none)
  else
    match env.convert_to_docx_bytes with
    | .error .pandoc => (pre ++ ["workflow.markdown.convert_failed"], none)
    | .error _ => (pre ++ ["workflow.document.generate_failed"], none)
    | .ok _ =>
      if !env.save_ok then (pre ++ ["workflow.document.generate_failed"], none)
      else
        (pre ++ [if env.open_ok then "workflow.document.generated_and_opened"
                 else "workflow.document.open_failed"], none)

/-- Embedding of `PasteWorkflow._generate_and_open_html_document`: failures
are caught inside with per-class keys; the open result is notified at the
end. -/
def _generate_and_open_html_document (env : WfEnv)
    (html_text : Option String) : FlowRun :=
  let readHtml : Except Unit String :=
    match html_text with
    | some h => .ok h
    | none => env.get_clipboard_html
  match readHtml with
  | .error _ => (["workflow.html.clipboard_failed"], none)
  | .ok _ =>
    if !env.pandocOk then (["workflow.pandoc.init_failed"], none)
    else
      match env.convert_html_to_docx_bytes with
      | .error .clipboard => (["workflow.html.clipboard_failed"], none)
      | .error .pandoc => (["workflow.html.convert_failed_format"], none)
      | .error _ => (["workflow.html.generate_failed"], none)
      | .ok _ =>
        if !env.save_ok then (["workflow.html.generate_failed"], none)
        else
          ([if env.open_ok then "workflow.html.generated_and_opened"
            else "workflow.document.open_failed"], none)

/-- Embedding of `PasteWorkflow._generate_and_open_spreadsheet`: an
unparsable table notifies `workflow.table.invalid_simple`; exceptions are
caught and notify `workflow.table.export_failed`; otherwise the
generate-and-open result is notified. -/
def _generate_and_open_spreadsheet (env : WfEnv) (md_text : String) :
    FlowRun :=
  match env.parse_markdown_table md_text with
  | none => (["workflow.table.invalid_simple"], none)
  | some _ =>
    match env.sheet_gen with
    | .error _ => (["workflow.table.export_failed"], none)
    | .ok true => (["workflow.table.export_success"], none)
    | .ok false => (["workflow.table.export_open_failed"], none)

/-- Embedding of `PasteWorkflow._handle_no_app_flow`: when auto-open is
disabled, notify `workflow.no_app_detected`; otherwise the HTML branch is
checked FIRST (`if is_html:` precedes the table check), then a parse result
that `is not None` together with `enable_excel` selects the spreadsheet
generator, and the document generator is the default. -/
def _handle_no_app_flow (env : WfEnv) (config : WfConfig) (md_text : String)
    (is_html : Bool) (html_text : Option String) : FlowRun :=
  if !config.auto_open_on_no_app then (["workflow.no_app_detected"], none)
  else if is_html then _generate_and_open_html_document env html_text
  else if (env.parse_markdown_table md_text).isSome && config.enable_excel
  then _generate_and_open_spreadsheet env md_text
  else _generate_and_open_document env md_text

/-- The dispatch part of `PasteWorkflow.execute` (after the emptiness
check): read the HTML fragment when one is advertised (a `ClipboardError`
resets the HTML flag), flag it for use when it is not a plain fragment,
detect the target application and route to the matching flow. -/
def runWorkflowBody (env : WfEnv) (config : WfConfig) : FlowRun :=
  let htmlInfo : Option String :=
    if env.is_clipboard_html then
      match env.get_clipboard_html with
      | .ok h => some h
      | .error _ => none
    else none
  let should_use_html : Bool :=
    match htmlInfo with
    | some h => !is_plain_html_fragment h env.htmlDoc env.htmlClipText
    | none => false
  let target := env.detect_active_app
  if should_use_html && (target == "word" || target == "wps") then
    _handle_html_to_word_flow env htmlInfo
  else if (target == "excel" || target == "wps_excel") && config.enable_excel
  then _handle_excel_flow env env.get_clipboard_text
  else if target == "word" || target == "wps" then
    _handle_word_flow env config env.get_clipboard_text
  else
    _handle_no_app_flow env config env.get_clipboard_text should_use_html
      (if should_use_html then htmlInfo else none)

/-- The `except` handlers at the bottom of `PasteWorkflow.execute`: a
`ClipboardError` escaping a flow notifies `workflow.clipboard.read_failed`,
a `PandocError` notifies `workflow.markdown.convert_failed`, and any other
exception notifies `workflow.generic.failure`. -/
def finishRun : FlowRun → List String
  | (notes, none) => notes
  | (notes, some .clipboard) => notes ++ ["workflow.clipboard.read_failed"]
  | (notes, some .pandoc) => notes ++ ["workflow.markdown.convert_failed"]
  | (notes, some .insert) => notes ++ ["workflow.generic.failure"]
  | (notes, some .other) => notes ++ ["workflow.generic.failure"]

/-- Embedding of `PasteWorkflow.execute`: the ordered list of notification
keys emitted for one hotkey press in environment `env` with configuration
`config`. -/
def executeWorkflow (env : WfEnv) (config : WfConfig) : List String :=
  if env.is_clipboard_empty then ["workflow.clipboard.empty"]
  else finishRun (runWorkflowBody env config)

/-- The text the fallback workflow classifies: the merged multi-file
Markdown when Markdown files are on the clipboard, the plain clipboard text
otherwise. -/
def fallbackMarkdownText (env : WfEnv) : String :=
  match env.md_files with
  | some fd => merge_markdown_contents fd
  | none => env.get_clipboard_text

/-- Embedding of `FallbackWorkflow._detect_content_type`: an empty
clipboard raises `ClipboardError`; a truthy table parse yields `table`
before the HTML fragment is even read; a readable non-plain HTML fragment
yields `html`; everything else yields `markdown`. -/
def _detect_content_type (env : WfEnv) : Except String String :=
  if env.is_clipboard_empty then .error "clipboard empty"
  else if tableTruthy (env.parse_markdown_table (fallbackMarkdownText env))
  then .ok "table"
  else
    match env.get_clipboard_html with
    | .ok h =>
      if !is_plain_html_fragment h env.htmlDoc env.htmlClipText then .ok "html"
      else .ok "markdown"
    | .error _ => .ok "markdown"

/-- C2 (amended): in the fallback workflow's classifier a truthy table
parse of the (possibly merged) clipboard text yields `table` no matter what
the HTML side of the clipboard holds; but in `PasteWorkflow`'s no-app flow
the HTML branch is checked first, so with auto-open enabled and an HTML
fragment flagged for use, the HTML document generator runs for every
`md_text`, including one that parses as a table. -/
theorem C2_table_priority_in_classification (env : WfEnv) (config : WfConfig)
    (md : String) (html : Option String)
    (hne : env.is_clipboard_empty = false)
    (htab : tableTruthy
      (env.parse_markdown_table (fallbackMarkdownText env)) = true) :
    _detect_content_type env = Except.ok "table" ∧
    (config.auto_open_on_no_app = true →
      _handle_no_app_flow env config md true html =
        _generate_and_open_html_document env html) := by
  constructor
  · unfold _detect_content_type
    rw [if_neg (by simp [hne]), if_pos htab]
  · intro ha
    unfold _handle_no_app_flow
    rw [ha]
    simp

/-- A baseline environment for concrete runs: nothing on the clipboard
parses as a table, no HTML is advertised, every oracle succeeds. -/
def baseEnv : WfEnv where
  is_clipboard_empty := false
  is_clipboard_html := false
  get_clipboard_html := .error ()
  htmlDoc := .nil
  htmlClipText := none
  detect_active_app := ""
  get_clipboard_text := ""
  md_files := none
  parse_markdown_table := fun _ => none
  normalize_markdown := id
  convert_latex_delimiters := id
  pandocOk := true
  convert_to_docx_bytes := .ok ()
  convert_html_to_docx_bytes := .ok ()
  word_insert_ok := true
  excel_insert := .ok true
  save_ok := true
  open_ok := true
  sheet_gen := .ok true

/-- A baseline configuration: Excel enabled, no keep-file, auto-open on. -/
def baseConfig : WfConfig where
  enable_excel := true
  keep_file := false
  auto_open_on_no_app := true

/-- A three-line Markdown table and a parse oracle recognising exactly it. -/
def tableText : String := "| a |\n| - |\n| 1 |"

/-- Table-parse oracle returning one header row and one data row on
`tableText` and `None` elsewhere. -/
def tableOracle : String → Option (List (List String)) :=
  fun s => if s = tableText then some [["a"], ["1"]] else none

/-- A clipboard HTML fragment holding a real `<table>` and its parse. -/
def c2Doc : HForest :=
  .cons (.elem "table" []
    (.cons (.elem "tr" []
      (.cons (.elem "td" [] (.cons (.text "1") .nil)) .nil)) .nil)) .nil

/-- Environment with a valid Markdown table as clipboard text AND a
non-plain HTML fragment simultaneously present, with no target app. -/
def c2Env : WfEnv :=
  { baseEnv with
    is_clipboard_html := true
    get_clipboard_html := .ok "<table><tr><td>1</td></tr></table>"
    htmlDoc := c2Doc
    get_clipboard_text := tableText
    parse_markdown_table := tableOracle }

/-- C2 counterexample: with the clipboard text parsing as a table and a
non-plain HTML fragment simultaneously present, the no-app press generates
and opens an HTML-derived document — the table classification does NOT take
priority in `PasteWorkflow._handle_no_app_flow`. -/
theorem C2_counterexample_html_preempts_table :
    tableTruthy (c2Env.parse_markdown_table c2Env.get_clipboard_text) =
      true ∧
    executeWorkflow c2Env baseConfig =
      ["workflow.html.generated_and_opened"] := by
  constructor
  · decide
  · decide

/-- Witness for C2 at the concrete table-plus-HTML environment. -/
theorem C2_table_priority_in_classification_witness :
    _detect_content_type c2Env = Except.ok "table" ∧
    (baseConfig.auto_open_on_no_app = true →
      _handle_no_app_flow c2Env baseConfig "" true none =
        _generate_and_open_html_document c2Env none) :=
  C2_table_priority_in_classification c2Env baseConfig "" none
    (by decide) (by decide)

/-- A run is non-silent when it already emitted a notification or lets an
exception escape to `execute`'s notifying handlers. -/
def goodRun (r : FlowRun) : Prop := r.1 ≠ [] ∨ r.2 ≠ none

/-- The silent path of the workflow: an Excel-target press whose table
parses and whose inserter returns `False` without raising. -/
def excelSilent (env : WfEnv) (config : WfConfig) : Prop :=
  (env.detect_active_app = "excel" ∨ env.detect_active_app = "wps_excel") ∧
    config.enable_excel = true ∧
    (env.parse_markdown_table env.get_clipboard_text).isSome = true ∧
    env.excel_insert = InsertOutcome.ok false

instance (env : WfEnv) (config : WfConfig) :
    Decidable (excelSilent env config) := by
  unfold excelSilent
  infer_instance

theorem finishRun_ne_nil (r : FlowRun) (h : goodRun r) : finishRun r ≠ [] := by
  obtain ⟨notes, err⟩ := r
  cases err with
  | none =>
    rcases h with h | h
    · simpa [finishRun] using h
    · exact absurd rfl h
  | some e => cases e <;> simp [finishRun]

theorem html_to_word_flow_good (env : WfEnv) (h : Option String) :
    goodRun (_handle_html_to_word_flow env h) := by
  unfold _handle_html_to_word_flow goodRun
  repeat' split
  all_goals cases env.get_clipboard_html <;> simp

theorem word_flow_good (env : WfEnv) (config : WfConfig) (md : String) :
    goodRun (_handle_word_flow env config md) := by
  unfold _handle_word_flow goodRun
  repeat' split
  all_goals simp

theorem excel_flow_good (env : WfEnv) (md : String)
    (h : ¬((env.parse_markdown_table md).isSome = true ∧
      env.excel_insert = InsertOutcome.ok false)) :
    goodRun (_handle_excel_flow env md) := by
  unfold _handle_excel_flow goodRun
  split
  · simp
  · rename_i rows hrows
    match hins : env.excel_insert with
    | .ok true => simp
    | .ok false => exact absurd ⟨by simp [hrows], hins⟩ h
    | .insertErr => simp
    | .otherErr => simp

theorem gen_document_good (env : WfEnv) (md : String) :
    goodRun (_generate_and_open_document env md) := by
  unfold _generate_and_open_document goodRun
  repeat' split
  all_goals simp

theorem gen_html_document_good (env : WfEnv) (h : Option String) :
    goodRun (_generate_and_open_html_document env h) := by
  unfold _generate_and_open_html_document goodRun
  repeat' split
  all_goals cases env.get_clipboard_html <;> simp

theorem gen_spreadsheet_good (env : WfEnv) (md : String) :
    goodRun (_generate_and_open_spreadsheet env md) := by
  unfold _generate_and_open_spreadsheet goodRun
  repeat' split
  all_goals simp

theorem no_app_flow_good (env : WfEnv) (config : WfConfig) (md : String)
    (ih : Bool) (h : Option String) :
    goodRun (_handle_no_app_flow env config md ih h) := by
  unfold _handle_no_app_flow
  split
  · exact Or.inl (by simp)
  · split
    · exact gen_html_document_good env h
    · split
      · exact gen_spreadsheet_good env md
      · exact gen_document_good env md

theorem runWorkflowBody_good (env : WfEnv) (config : WfConfig)
    (hx : ¬ excelSilent env config) :
    goodRun (runWorkflowBody env config) := by
  have hroute : ∀ (info : Option String) (suh : Bool),
      goodRun
        (if suh && (env.detect_active_app == "word" ||
            env.detect_active_app == "wps") then
          _handle_html_to_word_flow env info
        else if (env.detect_active_app == "excel" ||
            env.detect_active_app == "wps_excel") && config.enable_excel then
          _handle_excel_flow env env.get_clipboard_text
        else if env.detect_active_app == "word" ||
            env.detect_active_app == "wps" then
          _handle_word_flow env config env.get_clipboard_text
        else
          _handle_no_app_flow env config env.get_clipboard_text suh
            (if suh then info else none)) := by
    intro info suh
    split
    · exact html_to_word_flow_good env _
    · split
      · rename_i hcond
        refine excel_flow_good env _ fun hsil => hx ?_
        rw [Bool.and_eq_true, Bool.or_eq_true, beq_iff_eq, beq_iff_eq]
          at hcond
        exact ⟨hcond.1, hcond.2, hsil.1, hsil.2⟩
      · split
        · exact word_flow_good env config _
        · exact no_app_flow_good env config _ _ _
  exact hroute _ _

/-- C7 (amended): a hotkey press is never silent — `executeWorkflow` emits
at least one notification — EXCEPT on the one silent path where an
Excel-target insert returns `False` without raising; and a single press can
emit more than one notification. -/
theorem C7_no_silent_run_outside_excel_insert (env : WfEnv)
    (config : WfConfig) (hx : ¬ excelSilent env config) :
    executeWorkflow env config ≠ [] := by
  unfold executeWorkflow
  split
  · simp
  · exact finishRun_ne_nil _ (runWorkflowBody_good env config hx)

/-- Environment for a 100-line Markdown press against Word with every step
succeeding. -/
def c7LongEnv : WfEnv :=
  { baseEnv with
    detect_active_app := "word"
    get_clipboard_text := String.join (List.replicate 100 "line\n") }

/-- Environment for an Excel-target press whose inserter returns `False`
without raising. -/
def c7SilentEnv : WfEnv :=
  { baseEnv with
    detect_active_app := "excel"
    get_clipboard_text := tableText
    parse_markdown_table := tableOracle
    excel_insert := .ok false }

/-- C7 counterexample: a 100-line Markdown press emits TWO notifications
(`conversion_started` then the insert result), and the Excel silent path
emits none — refuting exactly-one-notification-per-press in both
directions. -/
theorem C7_counterexample_double_and_silent :
    executeWorkflow c7LongEnv baseConfig =
      ["workflow.markdown.conversion_started",
       "workflow.word.insert_success"] ∧
    (c7SilentEnv.parse_markdown_table c7SilentEnv.get_clipboard_text).isSome
      = true ∧
    executeWorkflow c7SilentEnv baseConfig = [] := by
  refine ⟨by decide, by decide, by decide⟩

/-- Environment for an ordinary short Markdown press against Word. -/
def c7OkEnv : WfEnv :=
  { baseEnv with detect_active_app := "word", get_clipboard_text := "hello" }

/-- Witness for C7 at a concrete non-Excel environment. -/
theorem C7_no_silent_run_outside_excel_insert_witness :
    executeWorkflow c7OkEnv baseConfig ≠ [] :=
  C7_no_silent_run_outside_excel_insert c7OkEnv baseConfig (by decide)

/-! ## Pandoc integration (src/pastemd/integrations/pandoc.py)

The integration shells out to the `pandoc` executable; the embedding passes
the subprocess as an oracle `runProc : command ↦ stdin bytes ↦ (returncode,
stdout, stderr)` and the `os.path` facilities consulted by
`_build_filter_args` as an `FsOracle`.  `protect_task_list_brackets`
(imported from `utils/html_formatter` but absent from the source snapshot)
and the two lua filter paths computed from `resource_path` at import time
(`config/paths` is also absent) enter as environment parameters. -/

/-- Python `a or b` on strings: `b` when `a` is empty. -/
def pyOr (a b : String) : String := if a = "" then b else a

/-- Truthiness of an optional string (`if reference_docx:` treats both
`None` and the empty string as absent). -/
def optTruthy : Option String → Bool
  | some s => pyTruthy s
  | none => false

/-- Python `s.replace(pat, rep)` on character lists: leftmost,
non-overlapping, for the non-empty patterns used here; the fuel is the
subject length plus one. -/
def pyReplaceAux : Nat → List Char → List Char → List Char → List Char
  | 0, h, _, _ => h
  | fuel + 1, h, pat, rep =>
    if pat ≠ [] ∧ pat.isPrefixOf h then
      rep ++ pyReplaceAux fuel (h.drop pat.length) pat rep
    else
      match h with
      | [] => []
      | c :: t => c :: pyReplaceAux fuel t pat rep

/-- Python `s.replace(pat, rep)`. -/
def pyReplace (s pat rep : String) : String :=
  ⟨pyReplaceAux (s.data.length + 1) s.data pat.data rep.data⟩

/-- UTF-8 encoding of a string (`s.encode("utf-8")`). -/
def strToUtf8 (s : String) : List Nat := utf8Encode (s.data.map Char.toNat)

/-- UTF-8 decoding with `errors="ignore"` (`bs.decode("utf-8", "ignore")`). -/
def utf8ToStr (bs : List Nat) : String :=
  ⟨(utf8DecodeIgnore bs).map Char.ofNat⟩

/-- Oracles for the `os.path` calls in `_build_filter_args` and the `cwd`
handling. -/
structure FsOracle where
  expandvars : String → String
  isabs : String → Bool
  abspath : String → String
  pathExists : String → Bool

/-- Embedding of `PandocIntegration._build_filter_args`: expand environment
variables, absolutise relative paths, skip missing files, and emit
`--lua-filter` for `.lua` files and `--filter` otherwise, in input order. -/
def _build_filter_args (fs : FsOracle) (custom_filters : List String) :
    List String :=
  custom_filters.flatMap fun filter_path =>
    let e1 := fs.expandvars filter_path
    let expanded := if !fs.isabs e1 then fs.abspath e1 else e1
    if !fs.pathExists expanded then []
    else if (pyLower expanded).endsWith ".lua" then ["--lua-filter", expanded]
    else ["--filter", expanded]

/-- Embedding of `_add_request_headers`: append a `--request-header` pair
for every non-blank header, stripped. -/
def _add_request_headers (cmd : List String)
    (request_headers : List String) : List String :=
  cmd ++ request_headers.flatMap fun header =>
    let h := pyStrip header
    if h = "" then [] else ["--request-header", h]

/-- Environment of one `PandocIntegration` instance: the probed executable
path, the subprocess oracle, the filesystem oracle, the two lua filter
paths resolved at import time, and the `protect_task_list_brackets`
preprocessor (its defining module is absent from the snapshot). -/
structure PandocEnv where
  pandoc_path : String
  runProc : List String → List Nat → Int × List Nat × List Nat
  fs : FsOracle
  luaLatexRepl : String
  luaKeepFormula : String
  protect_task_list_brackets : String → String

/-- The keyword options shared by `convert_to_docx_bytes` and
`convert_html_to_docx_bytes`.  `cwd` only chooses the subprocess working
directory and never reaches the output, so it is carried but unused. -/
structure DocxOpts where
  reference_docx : Option String
  Keep_original_formula : Bool
  enable_latex_replacements : Bool
  custom_filters : List String
  request_headers : List String
  cwd : Option String

/-- The `-f` source-format string for Markdown input. -/
def mdFromFormat : String :=
  "markdown+tex_math_dollars+raw_tex+tex_math_double_backslash" ++
    "+tex_math_single_backslash"

/-- The `-f` source-format string for HTML input. -/
def htmlFromFormat : String :=
  "html+tex_math_dollars+raw_tex+tex_math_double_backslash" ++
    "+tex_math_single_backslash"

/-- Pattern for pandoc's fenced math blocks (DOTALL): three backticks,
optional whitespace, `math`, optional whitespace, newline, lazily captured
body, newline, optional whitespace, three closing backticks. -/
def mathFenceRE : RE :=
  reSeqList [.lit backtick, .lit backtick, .lit backtick,
    .star false wsRE, reStr "math", .star false wsRE, .lit '\n',
    .group 1 (.star true (.anyChar true)), .lit '\n',
    .star false wsRE, .lit backtick, .lit backtick, .lit backtick]

/-- Replacement turning a fenced math block into `$$`-delimited display
math. -/
def mathFenceRepl : Repl := [.inl "$$\n".data, .inr 1, .inl "\n$$".data]

/-- Pattern for `$ (backtick code) $` inline math: dollar, optional
whitespace, backtick-quoted non-backtick run, optional whitespace,
dollar. -/
def dollarTickRE : RE :=
  reSeqList [.lit '$', .star false wsRE, .lit backtick,
    .group 1 (rePlus false (.cls true [.ch backtick])),
    .lit backtick, .star false wsRE, .lit '$']

/-- Replacement unquoting inline math to `$...$`. -/
def dollarTickRepl : Repl := [.inl ['$'], .inr 1, .inl ['$']]

/-- Pattern trimming trailing words after a fence language: captured fence
plus language word, then whitespace and a non-newline run. -/
def fenceLangRE : RE :=
  reSeqList [.group 1 (reSeqList [.lit backtick, .lit backtick,
    .lit backtick, .star false wsRE, rePlus false (.cls false [.word])]),
    rePlus false wsRE, rePlus false (.cls true [.ch '\n'])]

/-- Replacement keeping only the captured fence-plus-language. -/
def fenceLangRepl : Repl := [.inr 1]

/-- Pattern for escaped strikethrough: a backslash-tilde-tilde pair around a
lazily captured body. -/
def tildeStrikeRE : RE :=
  reSeqList [.lit '\\', .lit '~', .lit '~',
    .group 1 (.star true (.anyChar false)),
    .lit '\\', .lit '~', .lit '~']

/-- Replacement restoring unescaped strikethrough. -/
def tildeStrikeRepl : Repl := [.inl "~~".data, .inr 1, .inl "~~".data]

/-- Embedding of `PandocIntegration._convert_html_to_md`: protect task-list
brackets, run pandoc HTML→GFM, raise `PandocError` on a non-zero exit, then
decode, normalise newlines, apply the four regex fixups and restore the
task-list markers. -/
def _convert_html_to_md (env : PandocEnv) (html_text : String) :
    Except String String :=
  let protected_html := env.protect_task_list_brackets html_text
  let cmd := [env.pandoc_path, "-f", htmlFromFormat,
    "-t", "gfm-raw_html+tex_math_dollars", "-o", "-", "--wrap", "none"]
  let r := env.runProc cmd (strToUtf8 protected_html)
  if r.1 ≠ 0 then
    .error (pyOr (utf8ToStr r.2.2)
      "Pandoc HTML to Markdown conversion failed")
  else
    let md := utf8ToStr r.2.1
    let md := pyReplace (pyReplace md "\r\n" "\n") "\r" "\n"
    let md : String := ⟨reSub false mathFenceRE mathFenceRepl md.data⟩
    let md : String := ⟨reSub false dollarTickRE dollarTickRepl md.data⟩
    let md : String := ⟨reSub false fenceLangRE fenceLangRepl md.data⟩
    let md : String := ⟨reSub false tildeStrikeRE tildeStrikeRepl md.data⟩
    let md := pyReplace md "\x7b\x7bTASK_CHECKED\x7d\x7d" "[x]"
    let md := pyReplace md "\x7b\x7bTASK_UNCHECKED\x7d\x7d" "[ ]"
    .ok md

/-- Embedding of `PandocIntegration.convert_to_docx_bytes`: build the
Markdown→DOCX command (optional lua filters, custom filters, reference
document, request headers), feed the UTF-8 encoded text on stdin, raise
`PandocError` on a non-zero exit and return the stdout bytes. -/
def convert_to_docx_bytes (env : PandocEnv) (md_text : String)
    (opts : DocxOpts) : Except String (List Nat) :=
  let cmd := [env.pandoc_path, "-f", mdFromFormat, "-t", "docx", "-o", "-",
    "--highlight-style", "tango"]
  let cmd := cmd ++ (if opts.enable_latex_replacements then
    ["--lua-filter", env.luaLatexRepl] else [])
  let cmd := cmd ++ (if opts.Keep_original_formula then
    ["--lua-filter", env.luaKeepFormula] else [])
  let cmd := cmd ++ _build_filter_args env.fs opts.custom_filters
  let cmd := cmd ++ (if optTruthy opts.reference_docx then
    ["--reference-doc", opts.reference_docx.getD ""] else [])
  let cmd := _add_request_headers cmd opts.request_headers
  let r := env.runProc cmd (strToUtf8 md_text)
  if r.1 ≠ 0 then .error (pyOr (utf8ToStr r.2.2) "Pandoc conversion failed")
  else .ok r.2.1

/-- Embedding of `PandocIntegration.convert_html_to_docx_bytes`: with
`Keep_original_formula` the HTML is first converted to Markdown and the
result fed to `convert_to_docx_bytes` with the same options; otherwise the
direct HTML→DOCX command runs (without the keep-formula lua filter). -/
def convert_html_to_docx_bytes (env : PandocEnv) (html_text : String)
    (opts : DocxOpts) : Except String (List Nat) :=
  if opts.Keep_original_formula then
    match _convert_html_to_md env html_text with
    | .error e => .error e
    | .ok md => convert_to_docx_bytes env md opts
  else
    let cmd := [env.pandoc_path, "-f", htmlFromFormat, "-t", "docx", "-o",
      "-", "--highlight-style", "tango"]
    let cmd := cmd ++ (if opts.enable_latex_replacements then
      ["--lua-filter", env.luaLatexRepl] else [])
    let cmd := cmd ++ _build_filter_args env.fs opts.custom_filters
    let cmd := cmd ++ (if optTruthy opts.reference_docx then
      ["--reference-doc", opts.reference_docx.getD ""] else [])
    let cmd := _add_request_headers cmd opts.request_headers
    let r := env.runProc cmd (strToUtf8 html_text)
    if r.1 ≠ 0 then
      .error (pyOr (utf8ToStr r.2.2) "Pandoc HTML conversion failed")
    else .ok r.2.1

/-- Spec-side pipeline for the keep-original-formula mode, following the
spec's words: normalise HTML→Markdown first, then proceed Markdown→target
with the same options. -/
def specHtmlToDocxViaMd (env : PandocEnv) (html_text : String)
    (opts : DocxOpts) : Except String (List Nat) :=
  (_convert_html_to_md env html_text).bind fun md =>
    convert_to_docx_bytes env md opts

/-- C6: with keep-original-formula enabled, the HTML→DOCX conversion equals
the HTML→Markdown→DOCX composition with the same options, for every
environment, HTML input and option set — the direct HTML→DOCX command is
never taken in this mode. -/
theorem C6_keep_formula_routes_via_markdown (env : PandocEnv)
    (html_text : String) (opts : DocxOpts)
    (hk : opts.Keep_original_formula = true) :
    convert_html_to_docx_bytes env html_text opts =
      specHtmlToDocxViaMd env html_text opts := by
  unfold convert_html_to_docx_bytes specHtmlToDocxViaMd
  rw [if_pos hk]
  cases _convert_html_to_md env html_text <;> rfl

/-- A concrete pandoc environment whose subprocess oracle answers the
HTML→GFM command with `hello` and every other command with three bytes. -/
def pandocEnvEx : PandocEnv where
  pandoc_path := "pandoc"
  runProc := fun cmd _ =>
    if cmd.getD 4 "" = "gfm-raw_html+tex_math_dollars" then
      (0, strToUtf8 "hello", [])
    else (0, [1, 2, 3], [])
  fs := ⟨id, fun _ => true, id, fun _ => true⟩
  luaLatexRepl := "latex-replacements.lua"
  luaKeepFormula := "keep-latex-math.lua"
  protect_task_list_brackets := id

/-- Concrete options with keep-original-formula enabled. -/
def docxOptsEx : DocxOpts where
  reference_docx := none
  Keep_original_formula := true
  enable_latex_replacements := true
  custom_filters := []
  request_headers := []
  cwd := none

/-- Witness for C6 at a concrete environment, input and option set. -/
theorem C6_keep_formula_routes_via_markdown_witness :
    convert_html_to_docx_bytes pandocEnvEx "<p>x</p>" docxOptsEx =
      specHtmlToDocxViaMd pandocEnvEx "<p>x</p>" docxOptsEx :=
  C6_keep_formula_routes_via_markdown pandocEnvEx "<p>x</p>" docxOptsEx rfl

/-! ## Clipboard-based paste placers (src/pastemd/service/paste/)

Each placer wraps its effectful body — write the clipboard inside the
`preserve_clipboard` guard, sleep, simulate the paste keystroke — in a
`try/except Exception` and returns a `PlacementResult`.  The two effectful
steps enter as `Except String Unit` oracles whose error value is `str(e)`
of the raised exception (the guard itself restores best-effort and raises
nothing).  The `metadata` dictionary of the Python results does not affect
success or error reporting and is not carried. -/

/-- Modelled from the spec: `PlacementResult` — the sole outcome channel of
a placer: success flag, placement method name, optional diagnostic error
(its defining module `core/types.py` is absent from the snapshot). -/
structure PlacementResult where
  success : Bool
  method : String
  error : Option String
deriving DecidableEq

/-- Embedding of `PlainTextPastePlacer.place`: run the guarded block; on
success report `clipboard_plain_text` with no error, on any exception
return a failure result carrying `str(e)`. -/
def PlainTextPastePlacer.place (setRes pasteRes : Except String Unit) :
    PlacementResult :=
  match setRes with
  | .error e => ⟨false, "clipboard_plain_text", some e⟩
  | .ok _ =>
    match pasteRes with
    | .error e => ⟨false, "clipboard_plain_text", some e⟩
    | .ok _ => ⟨true, "clipboard_plain_text", none⟩

/-- Embedding of `RichTextPastePlacer.place`: as the plain-text placer but
writing both HTML and text formats and reporting `clipboard_rich_text`. -/
def RichTextPastePlacer.place (setRes pasteRes : Except String Unit) :
    PlacementResult :=
  match setRes with
  | .error e => ⟨false, "clipboard_rich_text", some e⟩
  | .ok _ =>
    match pasteRes with
    | .error e => ⟨false, "clipboard_rich_text", some e⟩
    | .ok _ => ⟨true, "clipboard_rich_text", none⟩

/-- Embedding of `FilePastePlacer.place`: fall back to `[content]` when no
path list is given and `content` is truthy; an empty path list fails with
the `no_file_paths` diagnostic before any clipboard work; otherwise run the
guarded block as the other placers do. -/
def FilePastePlacer.place (content : String)
    (file_paths : Option (List String))
    (setRes pasteRes : Except String Unit) : PlacementResult :=
  let paths := file_paths.getD []
  let paths := if paths.isEmpty && pyTruthy content then [content] else paths
  if paths.isEmpty then ⟨false, "clipboard_file", some "no_file_paths"⟩
  else
    match setRes with
    | .error e => ⟨false, "clipboard_file", some e⟩
    | .ok _ =>
      match pasteRes with
      | .error e => ⟨false, "clipboard_file", some e⟩
      | .ok _ => ⟨true, "clipboard_file", none⟩

/-- C8: a placer call always produces exactly one `PlacementResult` (the
embeddings are total functions), and whenever the clipboard write or the
paste keystroke fails — with the non-empty message every raise site in the
snapshot produces — each placer returns `success = false` with a non-empty
diagnostic; the file placer reports a non-empty diagnostic even on its
early no-paths failure. -/
theorem C8_placer_failure_reports_diagnostic (content : String)
    (fps : Option (List String)) (setRes pasteRes : Except String Unit)
    (e : String)
    (hfail : setRes = Except.error e ∨
      (setRes = Except.ok () ∧ pasteRes = Except.error e))
    (hne : e ≠ "") :
    ((PlainTextPastePlacer.place setRes pasteRes).success = false ∧
      (∃ m, (PlainTextPastePlacer.place setRes pasteRes).error = some m ∧
        m ≠ "")) ∧
    ((RichTextPastePlacer.place setRes pasteRes).success = false ∧
      (∃ m, (RichTextPastePlacer.place setRes pasteRes).error = some m ∧
        m ≠ "")) ∧
    ((FilePastePlacer.place content fps setRes pasteRes).success = false ∧
      (∃ m, (FilePastePlacer.place content fps setRes pasteRes).error =
        some m ∧ m ≠ "")) := by
  have hplain : PlainTextPastePlacer.place setRes pasteRes =
      ⟨false, "clipboard_plain_text", some e⟩ := by
    rcases hfail with h | ⟨h1, h2⟩
    · rw [h]
      rfl
    · rw [h1, h2]
      rfl
  have hrich : RichTextPastePlacer.place setRes pasteRes =
      ⟨false, "clipboard_rich_text", some e⟩ := by
    rcases hfail with h | ⟨h1, h2⟩
    · rw [h]
      rfl
    · rw [h1, h2]
      rfl
  have hfileEq : FilePastePlacer.place content fps setRes pasteRes =
      (if (if (fps.getD []).isEmpty && pyTruthy content then [content]
          else fps.getD []).isEmpty then
        (⟨false, "clipboard_file", some "no_file_paths"⟩ : PlacementResult)
      else ⟨false, "clipboard_file", some e⟩) := by
    rcases hfail with h | ⟨h1, h2⟩
    · rw [h]
      rfl
    · rw [h1, h2]
      rfl
  refine ⟨⟨by rw [hplain], ⟨e, by rw [hplain], hne⟩⟩,
    ⟨by rw [hrich], ⟨e, by rw [hrich], hne⟩⟩, ?_⟩
  rw [hfileEq]
  repeat' split
  all_goals
    first
    | exact ⟨rfl, "no_file_paths", rfl, by decide⟩
    | exact ⟨rfl, e, rfl, hne⟩

/-- Witness for C8 at a concrete paste-keystroke failure. -/
theorem C8_placer_failure_reports_diagnostic_witness :
    ((PlainTextPastePlacer.place (Except.ok ())
        (Except.error "Failed to simulate Cmd+V: timeout")).success = false ∧
      (∃ m, (PlainTextPastePlacer.place (Except.ok ())
        (Except.error "Failed to simulate Cmd+V: timeout")).error = some m ∧
        m ≠ "")) ∧
    ((RichTextPastePlacer.place (Except.ok ())
        (Except.error "Failed to simulate Cmd+V: timeout")).success = false ∧
      (∃ m, (RichTextPastePlacer.place (Except.ok ())
        (Except.error "Failed to simulate Cmd+V: timeout")).error = some m ∧
        m ≠ "")) ∧
    ((FilePastePlacer.place "a.md" none (Except.ok ())
        (Except.error "Failed to simulate Cmd+V: timeout")).success = false ∧
      (∃ m, (FilePastePlacer.place "a.md" none (Except.ok ())
        (Except.error "Failed to simulate Cmd+V: timeout")).error = some m ∧
        m ≠ "")) :=
  C8_placer_failure_reports_diagnostic "a.md" none (Except.ok ())
    (Except.error "Failed to simulate Cmd+V: timeout")
    "Failed to simulate Cmd+V: timeout" (Or.inr ⟨rfl, rfl⟩) (by decide)

/-! ## Workflow router (src/pastemd/app/workflows/router.py)

Workflow objects are represented by their class names; the routing table is
an insertion-ordered association list with Python-dict semantics (assign
overwrites in place, otherwise appends).  The configured window patterns
are compiled by a fuel-bounded reader of the pattern syntax the router can
meet, modelling `re.compile` on that subset; a reading failure models
`re.error`. -/

/-- A character-class escape inside `[...]`. -/
def clsEscItem : Char → Option ClsItem
  | 'd' => some .digit
  | 'w' => some .word
  | 's' => some .space
  | 'n' => some (.ch '\n')
  | 't' => some (.ch '\t')
  | 'r' => some (.ch '\x0d')
  | c => if c.isAlphanum then none else some (.ch c)

/-- Items of a character class up to the closing bracket: plain characters,
ranges and escapes; running out of input is a syntax error. -/
def parseClsItems : Nat → List Char → Option (List ClsItem × List Char)
  | 0, _ => none
  | _, [] => none
  | _ + 1, ']' :: rest => some ([], rest)
  | fuel + 1, '\\' :: rest =>
    match rest with
    | [] => none
    | c :: rest2 =>
      match clsEscItem c with
      | none => none
      | some it =>
        match parseClsItems fuel rest2 with
        | some (its, r) => some (it :: its, r)
        | none => none
  | fuel + 1, a :: rest =>
    match rest with
    | '-' :: b :: rest2 =>
      if b = ']' then
        match parseClsItems fuel rest with
        | some (its, r) => some (.ch a :: its, r)
        | none => none
      else
        match parseClsItems fuel rest2 with
        | some (its, r) => some (.range a b :: its, r)
        | none => none
    | _ =>
      match parseClsItems fuel rest with
      | some (its, r) => some (.ch a :: its, r)
      | none => none

/-- Reader modes: alternation, concatenation, repetition, atom. -/
inductive PMode where
  | alt
  | cat
  | rep
  | atom

/-- Fuel-bounded recursive-descent reading of a pattern string into a regex
tree, modelling `re.compile` on the subset dynamic window patterns use:
literals, escapes (`\\d` `\\w` `\\s` and their negations, control escapes,
escaped metacharacters, backreferences), classes with ranges and negation,
capturing groups, alternation, greedy and lazy `*` `+` `?`, `.` and the
`^`/`$` anchors.  `none` models `re.error` (dangling quantifiers,
unbalanced groups or classes, trailing backslashes, unknown letter
escapes).  Returns the tree, the next capture index and the unread rest. -/
def parseREMode : Nat → PMode → Nat → List Char →
    Option (RE × Nat × List Char)
  | 0, _, _, _ => none
  | fuel + 1, .alt, gi, s => do
    let (a, gi1, r1) ← parseREMode fuel .cat gi s
    match r1 with
    | '|' :: rest =>
      let (b, gi2, r2) ← parseREMode fuel .alt gi1 rest
      some (.alt a b, gi2, r2)
    | _ => some (a, gi1, r1)
  | fuel + 1, .cat, gi, s =>
    match s with
    | [] => some (.eps, gi, [])
    | ')' :: _ => some (.eps, gi, s)
    | '|' :: _ => some (.eps, gi, s)
    | _ => do
      let (a, gi1, r1) ← parseREMode fuel .rep gi s
      let (b, gi2, r2) ← parseREMode fuel .cat gi1 r1
      some (.seq a b, gi2, r2)
  | fuel + 1, .rep, gi, s => do
    let (a, gi1, r1) ← parseREMode fuel .atom gi s
    match r1 with
    | '*' :: '?' :: rest => some (.star true a, gi1, rest)
    | '*' :: rest => some (.star false a, gi1, rest)
    | '+' :: '?' :: rest => some (.seq a (.star true a), gi1, rest)
    | '+' :: rest => some (.seq a (.star false a), gi1, rest)
    | '?' :: '?' :: rest => some (.opt true a, gi1, rest)
    | '?' :: rest => some (.opt false a, gi1, rest)
    | _ => some (a, gi1, r1)
  | fuel + 1, .atom, gi, s =>
    match s with
    | [] => none
    | '(' :: rest => do
      let (a, gi1, r1) ← parseREMode fuel .alt (gi + 1) rest
      match r1 with
      | ')' :: rest2 => some (.group gi a, gi1, rest2)
      | _ => none
    | '[' :: rest =>
      let st : Bool × List Char :=
        match rest with
        | '^' :: r => (true, r)
        | _ => (false, rest)
      match st.2 with
      | ']' :: r3 =>
        match parseClsItems fuel r3 with
        | some (its, r4) => some (.cls st.1 (.ch ']' :: its), gi, r4)
        | none => none
      | _ =>
        match parseClsItems fuel st.2 with
        | some (its, r3) => some (.cls st.1 its, gi, r3)
        | none => none
    | '.' :: rest => some (.anyChar false, gi, rest)
    | '^' :: rest => some (.bol false, gi, rest)
    | '$' :: rest => some (.eol false, gi, rest)
    | '\\' :: rest =>
      match rest with
      | [] => none
      | c :: rest2 =>
        if c = 'd' then some (.cls false [.digit], gi, rest2)
        else if c = 'D' then some (.cls true [.digit], gi, rest2)
        else if c = 'w' then some (.cls false [.word], gi, rest2)
        else if c = 'W' then some (.cls true [.word], gi, rest2)
        else if c = 's' then some (.cls false [.space], gi, rest2)
        else if c = 'S' then some (.cls true [.space], gi, rest2)
        else if c = 'n' then some (.lit '\n', gi, rest2)
        else if c = 't' then some (.lit '\t', gi, rest2)
        else if c = 'r' then some (.lit '\x0d', gi, rest2)
        else if '1' ≤ c ∧ c ≤ '9' then
          some (.backref (c.toNat - 48), gi, rest2)
        else if c.isAlphanum then none
        else some (.lit c, gi, rest2)
    | c :: rest =>
      if c = '*' ∨ c = '+' ∨ c = '?' ∨ c = ')' ∨ c = '|' then none
      else some (.lit c, gi, rest)

/-- Reading a whole pattern: parse as an alternation and require the input
to be consumed; `none` models `re.error`. -/
def parseRegex (pattern : String) : Option RE :=
  match parseREMode (50 * pattern.length + 50) .alt 1 pattern.data with
  | some (re, _, []) => some re
  | _ => none

/-- Embedding of `WorkflowRouter._match_window_patterns`: skip falsy
patterns, compile each remaining one (a pattern failing to compile — a
`re.error` — is logged and skipped, never raised) and search the window
title case-insensitively; true when any pattern matches. -/
def _match_window_patterns (window_title : String)
    (patterns : List String) : Bool :=
  patterns.any fun pattern =>
    if !pyTruthy pattern then false
    else
      match parseRegex pattern with
      | some re => reTest true re window_title
      | none => false

/-- Insertion-ordered dictionary lookup. -/
def dictGet? : List (String × String) → String → Option String
  | [], _ => none
  | e :: rest, k => if e.1 = k then some e.2 else dictGet? rest k

/-- Python `k in routes`. -/
def dictHas (d : List (String × String)) (k : String) : Bool :=
  (dictGet? d k).isSome

/-- Python `routes[k] = v`: overwrite in place when the key exists, append
otherwise. -/
def dictSet (d : List (String × String)) (k v : String) :
    List (String × String) :=
  if dictHas d k then d.map fun e => if e.1 = k then (k, v) else e
  else d ++ [(k, v)]

/-- The non-configurable core routing table (workflows by class name). -/
def core_workflows : List (String × String) :=
  [("word", "WordWorkflow"), ("wps", "WPSWorkflow"),
   ("excel", "ExcelWorkflow"), ("wps_excel", "WPSExcelWorkflow"),
   ("", "FallbackWorkflow")]

/-- The extensible-workflow registry, in construction order. -/
def extensible_registry : List (String × String) :=
  [("html", "HtmlWorkflow"), ("md", "MdWorkflow"),
   ("latex", "LatexWorkflow")]

/-- One configured extensible workflow: the enabled flag and its app
bindings (an entry bears a lowercased-later id and its window patterns;
non-dict entries of the Python list surface as an empty id, which is
skipped). -/
structure AppEntry where
  id : String
  window_patterns : List String

/-- One `extensible_workflows` configuration value. -/
structure ExtWorkflowCfg where
  enabled : Bool
  apps : List AppEntry

/-- The inner loop of `_build_dynamic_routes` over one workflow's app
bindings: skip empty ids; with patterns AND a truthy title, add the route
only when a pattern matches; without patterns, add it when the key is not
yet routed; with patterns but an empty title, add nothing. -/
def addAppRoutes (window_title wfLabel : String) :
    List AppEntry → List (String × String) → List (String × String)
  | [], routes => routes
  | app :: rest, routes =>
    let app_key := pyLower app.id
    let routes :=
      if app_key = "" then routes
      else if !app.window_patterns.isEmpty && pyTruthy window_title then
        if _match_window_patterns window_title app.window_patterns then
          dictSet routes app_key wfLabel
        else routes
      else if app.window_patterns.isEmpty then
        if !dictHas routes app_key then dictSet routes app_key wfLabel
        else routes
      else routes
    addAppRoutes window_title wfLabel rest routes

/-- The outer loop of `_build_dynamic_routes` over the registry: apply the
app bindings of every enabled configured workflow. -/
def buildRoutesFrom (ext_config : String → Option ExtWorkflowCfg)
    (window_title : String) :
    List (String × String) → List (String × String) → List (String × String)
  | [], acc => acc
  | kw :: rest, acc =>
    let acc :=
      match ext_config kw.1 with
      | none => acc
      | some cfg =>
        if cfg.enabled then addAppRoutes window_title kw.2 cfg.apps acc
        else acc
    buildRoutesFrom ext_config window_title rest acc

/-- Embedding of `WorkflowRouter._build_dynamic_routes`: start from a copy
of the core table and fold the registry (`ext_config key ↦ none` models a
key absent from the configuration, whose `enabled` defaults to false). -/
def _build_dynamic_routes (ext_config : String → Option ExtWorkflowCfg)
    (window_title : String) : List (String × String) :=
  buildRoutesFrom ext_config window_title extensible_registry core_workflows

/-- Embedding of `WorkflowRouter.route`'s dispatch:
`routes.get(target_app, routes[""])`. -/
def route (ext_config : String → Option ExtWorkflowCfg)
    (target_app window_title : String) : String :=
  let routes := _build_dynamic_routes ext_config window_title
  match dictGet? routes target_app with
  | some w => w
  | none =>
    match dictGet? routes "" with
    | some w => w
    | none => ""

/-- An `extensible_workflows` configuration with a single enabled workflow
holding a single app binding. -/
def singleAppCfg (key : String) (app : AppEntry) :
    String → Option ExtWorkflowCfg :=
  fun k => if k = key then some ⟨true, [app]⟩ else none

theorem dictGet?_append (d e : List (String × String)) (k : String) :
    dictGet? (d ++ e) k =
      match dictGet? d k with
      | some v => some v
      | none => dictGet? e k := by
  induction d with
  | nil => rfl
  | cons a t ih =>
    rw [List.cons_append, dictGet?, dictGet?]
    split
    · rfl
    · exact ih

/-- C9 (amended): for a NON-EMPTY window title, an enabled extensible
binding with configured window patterns, whose lowercased id is non-empty
and not a core key, is entered into the routing table exactly when
`_match_window_patterns` accepts the title against its patterns; a pattern
failing to compile is skipped without raising (it contributes nothing to
the match); and a target identity with no entry in the built table routes
to the fallback workflow. -/
theorem C9_window_pattern_routing (app : AppEntry)
    (title target p : String) (ps : List String)
    (hpat : app.window_patterns ≠ [])
    (htitle : pyTruthy title = true)
    (hid : pyLower app.id ≠ "")
    (hcore : dictGet? core_workflows (pyLower app.id) = none)
    (hinvalid : parseRegex p = none) :
    dictHas (_build_dynamic_routes (singleAppCfg "html" app) title)
        (pyLower app.id) =
      _match_window_patterns title app.window_patterns ∧
    (dictGet? (_build_dynamic_routes (singleAppCfg "html" app) title)
        target = none →
      route (singleAppCfg "html" app) target title = "FallbackWorkflow") ∧
    _match_window_patterns title (p :: ps) =
      _match_window_patterns title ps := by
  have hie : app.window_patterns.isEmpty = false := by
    cases hw : app.window_patterns with
    | nil => exact absurd hw hpat
    | cons a t => rfl
  have hbuild : _build_dynamic_routes (singleAppCfg "html" app) title =
      (if _match_window_patterns title app.window_patterns then
        dictSet core_workflows (pyLower app.id) "HtmlWorkflow"
      else core_workflows) := by
    show buildRoutesFrom _ _ _ _ = _
    rw [extensible_registry]
    rw [buildRoutesFrom, buildRoutesFrom, buildRoutesFrom, buildRoutesFrom]
    have h1 : singleAppCfg "html" app "html" = some ⟨true, [app]⟩ := rfl
    have h2 : singleAppCfg "html" app "md" = none := rfl
    have h3 : singleAppCfg "html" app "latex" = none := rfl
    simp only [h1, h2, h3, addAppRoutes, if_pos rfl]
    rw [if_neg hid]
    rw [hie]
    simp only [Bool.not_false, htitle, Bool.and_self, if_pos rfl]
    rfl
  have hfb : dictGet? (_build_dynamic_routes (singleAppCfg "html" app)
      title) "" = some "FallbackWorkflow" := by
    rw [hbuild]
    split
    · rw [dictSet, if_neg (by simp [dictHas, hcore])]
      rw [dictGet?_append]
      rfl
    · rfl
  refine ⟨?_, ?_, ?_⟩
  · rw [hbuild]
    by_cases hm : _match_window_patterns title app.window_patterns = true
    · rw [if_pos hm, hm, dictSet, if_neg (by simp [dictHas, hcore])]
      rw [dictHas, dictGet?_append, hcore]
      simp [dictGet?]
    · rw [if_neg hm, dictHas, hcore]
      rw [Bool.not_eq_true] at hm
      rw [hm]
      rfl
  · intro hmiss
    show (match dictGet? (_build_dynamic_routes (singleAppCfg "html" app)
        title) target with
      | some w => w
      | none =>
        match dictGet? (_build_dynamic_routes (singleAppCfg "html" app)
          title) "" with
        | some w => w
        | none => "") = "FallbackWorkflow"
    rw [hmiss, hfb]
  · show (List.any _ _) = (List.any _ _)
    rw [List.any_cons, hinvalid]
    cases ht : pyTruthy p <;> simp

/-- Concrete binding and title for the C9 witness: pattern `.*Notion.*`
against the title `Untitled - Notion`, plus the uncompilable pattern `[`
being skipped. -/
def notionApp : AppEntry := ⟨"NotionApp", [".*Notion.*"]⟩

/-- Witness for C9 at the Notion binding, an unroutable target and the
invalid pattern. -/
theorem C9_window_pattern_routing_witness :
    (dictHas (_build_dynamic_routes (singleAppCfg "html" notionApp)
        "Untitled - Notion") (pyLower notionApp.id) =
      _match_window_patterns "Untitled - Notion"
        notionApp.window_patterns ∧
    (dictGet? (_build_dynamic_routes (singleAppCfg "html" notionApp)
        "Untitled - Notion") "obsidian.exe" = none →
      route (singleAppCfg "html" notionApp) "obsidian.exe"
        "Untitled - Notion" = "FallbackWorkflow") ∧
    _match_window_patterns "Untitled - Notion" ("[" :: [".*Notion.*"]) =
      _match_window_patterns "Untitled - Notion" [".*Notion.*"]) :=
  C9_window_pattern_routing notionApp "Untitled - Notion" "obsidian.exe"
    "[" [".*Notion.*"] (by decide) (by decide) (by decide) (by decide)
    (by decide)

/-- C9 counterexample: with an EMPTY window title, a patterned binding is
never entered even though its pattern `.*` matches the empty title under
case-insensitive regex search — refuting the unconditional
matched-iff-entered reading; matching case-insensitively is also shown
against the spec's scenario pair. -/
theorem C9_counterexample_empty_title_binding_dropped :
    (match parseRegex ".*" with
     | some re => reTest true re ""
     | none => false) = true ∧
    dictGet? (_build_dynamic_routes (singleAppCfg "html"
      ⟨"notionapp", [".*"]⟩) "") "notionapp" = none ∧
    _match_window_patterns "Untitled - Notion" [".*notion.*"] = true ∧
    _match_window_patterns "Untitled - Obsidian" [".*Notion.*"] = false := by
  refine ⟨by decide, by decide, by decide, by decide⟩

/-! ## CF_HTML payload build and extraction
(src/pastemd/utils/win32/clipboard.py)

Python `bytes` values are `List Nat` of byte values and Python `str` values
are `List Nat` of code points (ASCII scanning keys stay numerically equal
in both views).  `bytes.splitlines`, `strip`, `split(colon, 1)`,
`decode("ascii", "ignore")`, `isdigit`, `int()` and `find` are each
modelled below. -/

/-- The `bytes.strip()` whitespace set. -/
def byteIsSpace (b : Nat) : Bool :=
  b == 32 || b == 9 || b == 10 || b == 13 || b == 11 || b == 12

/-- The `str.strip()` whitespace set restricted to ASCII (adds the four
separator control characters to the byte set). -/
def strIsSpaceB (b : Nat) : Bool :=
  byteIsSpace b || (28 ≤ b && b ≤ 31)

/-- `bytes.strip()`. -/
def bytesStrip (l : List Nat) : List Nat :=
  ((l.dropWhile byteIsSpace).reverse.dropWhile byteIsSpace).reverse

/-- `str.strip()` on a code-point list. -/
def bytesStripStr (l : List Nat) : List Nat :=
  ((l.dropWhile strIsSpaceB).reverse.dropWhile strIsSpaceB).reverse

/-- `bytes.splitlines()` worker: accumulate the current line (reversed) and
break on CR LF, lone CR or lone LF; a trailing line break adds no empty
line.  The fuel is the remaining input length (each step consumes at least
one byte), so the exhaustion branch is never reached from
`bytesSplitLines`. -/
def bytesSplitLinesAux : Nat → List Nat → List Nat → List (List Nat)
  | _, acc, [] => if acc.isEmpty then [] else [acc.reverse]
  | 0, acc, l => [acc.reverse ++ l]
  | fuel + 1, acc, b :: rest =>
    if b == 13 then
      acc.reverse :: bytesSplitLinesAux fuel []
        (if rest.head? == some 10 then rest.tail else rest)
    else if b == 10 then acc.reverse :: bytesSplitLinesAux fuel [] rest
    else bytesSplitLinesAux fuel (b :: acc) rest

/-- `bytes.splitlines()`. -/
def bytesSplitLines (l : List Nat) : List (List Nat) :=
  bytesSplitLinesAux l.length [] l

/-- `raw_line.split(b":", 1)`: the part before the first colon and the part
after it (the whole line and an empty remainder when no colon occurs;
callers guard on containment as the source does). -/
def splitColon : List Nat → List Nat × List Nat
  | [] => ([], [])
  | b :: rest =>
    if b == 58 then ([], rest)
    else
      let kv := splitColon rest
      (b :: kv.1, kv.2)

/-- `decode("ascii", errors="ignore")`: keep the bytes below 128 as code
points. -/
def asciiIgnore (l : List Nat) : List Nat :=
  l.filter fun b => decide (b < 128)

/-- Decimal digits of a number, most significant first, fuel-bounded
(`fuel > n` suffices). -/
def natDigitsB : Nat → Nat → List Nat
  | 0, _ => []
  | fuel + 1, n =>
    if n < 10 then [48 + n]
    else natDigitsB fuel (n / 10) ++ [48 + n % 10]

/-- `"{:010d}".format(n)` as bytes: the decimal digits left-padded with
zeros to (at least) ten characters. -/
def pad10B (n : Nat) : List Nat :=
  List.replicate (10 - (natDigitsB (n + 1) n).length) 48 ++
    natDigitsB (n + 1) n

/-- `int(s)` for a digit string. -/
def bytesToNat (l : List Nat) : Nat :=
  l.foldl (fun acc d => acc * 10 + (d - 48)) 0

/-- `s.isdigit()` for ASCII content: non-empty and all decimal digits. -/
def bytesIsDigits (l : List Nat) : Bool :=
  !l.isEmpty && l.all fun b => 48 ≤ b && b ≤ 57

/-- `bytes.find` worker from an absolute index: the first position whose
suffix starts with the pattern. -/
def bytesFindFrom (pat : List Nat) : List Nat → Nat → Option Nat
  | [], i => if pat.isEmpty then some i else none
  | b :: rest, i =>
    if pat.isPrefixOf (b :: rest) then some i
    else bytesFindFrom pat rest (i + 1)

/-- `hay.find(pat)` (with `none` for Python's `-1`). -/
def bytesFind (hay pat : List Nat) : Option Nat := bytesFindFrom pat hay 0

/-- `pat in hay` for bytes and code-point lists. -/
def bytesContains (hay pat : List Nat) : Bool := (bytesFind hay pat).isSome

/-- The last occurrence position of a pattern. -/
def bytesFindLast (hay pat : List Nat) : Option Nat :=
  ((List.range (hay.length + 1)).filter
    fun i => pat.isPrefixOf (hay.drop i)).getLast?

/-- ASCII bytes of a literal. -/
def asciiBytes (s : String) : List Nat := s.data.map Char.toNat

/-- The `<!--StartFragment-->` marker bytes. -/
def SMb : List Nat := asciiBytes "<!--StartFragment-->"

/-- The `<!--EndFragment-->` marker bytes. -/
def EMb : List Nat := asciiBytes "<!--EndFragment-->"

/-- The wrapper prefix `_build_cf_html` puts before the start marker. -/
def wrapPreB : List Nat :=
  asciiBytes "<html><head><meta charset=\"utf-8\"></head><body>"

/-- The wrapper suffix after the end marker. -/
def wrapSufB : List Nat := asciiBytes "</body></html>"

/-- The CF_HTML header for the four offsets, each formatted to ten digits
(105 bytes whenever every offset is below 10^10). -/
def cfHeaderB (sh eh sf ef : Nat) : List Nat :=
  asciiBytes "Version:1.0" ++ [13, 10] ++
  asciiBytes "StartHTML:" ++ pad10B sh ++ [13, 10] ++
  asciiBytes "EndHTML:" ++ pad10B eh ++ [13, 10] ++
  asciiBytes "StartFragment:" ++ pad10B sf ++ [13, 10] ++
  asciiBytes "EndFragment:" ++ pad10B ef ++ [13, 10]

/-- The fragment-offset pair of the header: when both markers are found in
order, the fragment starts after the start marker and ends at the end
marker; otherwise it spans the whole document. -/
def cfFragRange (start_html end_html : Nat) :
    Option Nat → Option Nat → Nat × Nat
  | some sfi, some efi =>
    if efi < sfi then (start_html, end_html)
    else (start_html + sfi + SMb.length, start_html + efi)
  | _, _ => (start_html, end_html)

/-- Embedding of `_build_cf_html`: wrap the HTML (as code points) in the
fixed document shell unless both markers are already present, encode as
UTF-8, locate the markers byte-wise (falling back to the whole document
range when they are missing or inverted) and prepend the offset header. -/
def _build_cf_html (html : List Nat) : List Nat :=
  let html_doc :=
    if bytesContains html SMb && bytesContains html EMb then html
    else wrapPreB ++ SMb ++ html ++ EMb ++ wrapSufB
  let html_bytes := utf8Encode html_doc
  let start_html := (cfHeaderB 0 0 0 0).length
  let end_html := start_html + html_bytes.length
  let frag := cfFragRange start_html end_html
    (bytesFind html_bytes SMb) (bytesFind html_bytes EMb)
  cfHeaderB start_html end_html frag.1 frag.2 ++ html_bytes

/-- The meta dictionary of the header scan (keys and values as code-point
lists). -/
abbrev MetaDict := List (List Nat × List Nat)

/-- Dictionary lookup. -/
def metaGet? : MetaDict → List Nat → Option (List Nat)
  | [], _ => none
  | e :: rest, k => if e.1 = k then some e.2 else metaGet? rest k

/-- Python `meta[key] = val`: overwrite in place or append. -/
def metaSet (d : MetaDict) (k v : List Nat) : MetaDict :=
  if (metaGet? d k).isSome then d.map fun e => if e.1 = k then (k, v) else e
  else d ++ [(k, v)]

/-- The scan's key for one line: the part before the first colon, decoded
`ascii`/`ignore` and stripped. -/
def lineKey (line : List Nat) : List Nat :=
  bytesStripStr (asciiIgnore (splitColon line).1)

/-- The scan's value for one line: the part after the first colon, decoded
`ascii`/`ignore` and stripped. -/
def lineVal (line : List Nat) : List Nat :=
  bytesStripStr (asciiIgnore (splitColon line).2)

/-- The meta-scanning loop of `_extract_html_fragment_bytes`: walk the
payload lines, stop at the first line whose stripped bytes start with
`<!--`, and for every other line containing a colon record the
ASCII-decoded, stripped key/value pair (empty keys skipped). -/
def scanMetaLines : List (List Nat) → MetaDict → MetaDict
  | [], meta => meta
  | line :: rest, meta =>
    if [60, 33, 45, 45].isPrefixOf (bytesStrip line) then meta
    else if line.contains 58 then
      if lineKey line ≠ [] then
        scanMetaLines rest (metaSet meta (lineKey line) (lineVal line))
      else scanMetaLines rest meta
    else scanMetaLines rest meta

/-- The `StartFragment` scan key. -/
def kStartFragment : List Nat := asciiBytes "StartFragment"

/-- The `EndFragment` scan key. -/
def kEndFragment : List Nat := asciiBytes "EndFragment"

/-- The `StartHTML` scan key. -/
def kStartHTML : List Nat := asciiBytes "StartHTML"

/-- The `EndHTML` scan key. -/
def kEndHTML : List Nat := asciiBytes "EndHTML"

/-- The regex fallback `<!--StartFragment-->(.*)<!--EndFragment-->` with
`re.S`: the leftmost match starts at the first start marker and the greedy
group ends at the last end marker at or after it. -/
def cfHtmlRegexFallback (bs : List Nat) : Option (List Nat) :=
  match bytesFindLast bs EMb with
  | none => none
  | some j =>
    match bytesFind bs SMb with
    | none => none
    | some i =>
      if i + SMb.length ≤ j then some ((bs.take j).drop (i + SMb.length))
      else none

/-- The direct slice of the extractor: when both offset strings are digit
strings and the range fits the payload, decode that byte range. -/
def cfDirectSlice (bs sf ef : List Nat) : Option (List Nat) :=
  if bytesIsDigits sf && bytesIsDigits ef then
    if bytesToNat sf ≤ bytesToNat ef ∧ bytesToNat ef ≤ bs.length then
      some (utf8DecodeIgnore ((bs.take (bytesToNat ef)).drop (bytesToNat sf)))
    else none
  else none

/-- The extractor's fallback chain: the marker regex, then the
StartHTML/EndHTML range, then the whole payload. -/
def cfFallbackChain (bs : List Nat) (meta : MetaDict) : List Nat :=
  match cfHtmlRegexFallback bs with
  | some frag => utf8DecodeIgnore frag
  | none =>
    let sh := (metaGet? meta kStartHTML).getD [48]
    let eh := (metaGet? meta kEndHTML).getD
      (natDigitsB (bs.length + 1) bs.length)
    let a := if bytesIsDigits sh then bytesToNat sh else 0
    let b := if bytesIsDigits eh then bytesToNat eh else bs.length
    if a ≤ b ∧ b ≤ bs.length then utf8DecodeIgnore ((bs.take b).drop a)
    else utf8DecodeIgnore bs

/-- Embedding of `_extract_html_fragment_bytes`: scan the header meta over
ALL payload lines (breaking only at a line whose stripped bytes start with
`<!--`), slice by the StartFragment/EndFragment offsets when both are digit
strings in range, otherwise run the fallback chain; every decode uses
`errors="ignore"`.  Returns the extracted string as code points. -/
def _extract_html_fragment_bytes (bs : List Nat) : List Nat :=
  let meta := scanMetaLines (bytesSplitLines bs) []
  match cfDirectSlice bs ((metaGet? meta kStartFragment).getD [])
      ((metaGet? meta kEndFragment).getD []) with
  | some r => r
  | none => cfFallbackChain bs meta

/-- A marker-free HTML input one of whose lines reads like a CF_HTML header
entry. -/
def c10Poison : List Nat := asciiBytes "a\nStartFragment:0\nb"

/-- C10 counterexample: the input contains neither fragment marker, yet the
build-then-extract round trip does not return it — the extractor's meta
scan walks every payload line (the wrapped body line does not start with
`<!--`), so the body line `StartFragment:0` overwrites the header's offset
and the slice returns the payload from byte 0. -/
theorem C10_counterexample_header_like_line :
    bytesContains c10Poison SMb = false ∧
    bytesContains c10Poison EMb = false ∧
    _extract_html_fragment_bytes (_build_cf_html c10Poison) ≠ c10Poison := by
  refine ⟨by decide, by decide, by decide⟩

theorem bytesFindFrom_none_no_occ (pat : List Nat) :
    ∀ (hay : List Nat) (i : Nat), bytesFindFrom pat hay i = none →
      ∀ j, pat.isPrefixOf (hay.drop j) = false := by
  intro hay
  induction hay with
  | nil =>
    intro i h j
    rw [bytesFindFrom] at h
    rw [List.drop_nil]
    cases pat with
    | nil => simp at h
    | cons p ps => rfl
  | cons b rest ih =>
    intro i h j
    rw [bytesFindFrom] at h
    by_cases hp : pat.isPrefixOf (b :: rest) = true
    · rw [if_pos hp] at h
      exact absurd h (by simp)
    · rw [if_neg hp] at h
      cases j with
      | zero => exact Bool.eq_false_iff.mpr hp
      | succ j' =>
        rw [List.drop_succ_cons]
        exact ih (i + 1) h j'

theorem bytesFindFrom_isSome_occ (pat : List Nat) :
    ∀ (hay : List Nat) (i j : Nat), pat.isPrefixOf (hay.drop j) = true →
      (bytesFindFrom pat hay i).isSome = true := by
  intro hay
  induction hay with
  | nil =>
    intro i j h
    rw [List.drop_nil] at h
    cases pat with
    | nil => rw [bytesFindFrom]; rfl
    | cons p ps => exact absurd h (by simp [List.isPrefixOf])
  | cons b rest ih =>
    intro i j h
    rw [bytesFindFrom]
    by_cases hp : pat.isPrefixOf (b :: rest) = true
    · rw [if_pos hp]
      rfl
    · rw [if_neg hp]
      cases j with
      | zero => exact absurd h hp
      | succ j' =>
        rw [List.drop_succ_cons] at h
        exact ih (i + 1) j' h

theorem bytesContains_false_no_occ (hay pat : List Nat)
    (h : bytesContains hay pat = false) (j : Nat) :
    pat.isPrefixOf (hay.drop j) = false := by
  by_cases hp : pat.isPrefixOf (hay.drop j) = true
  · have := bytesFindFrom_isSome_occ pat hay 0 j hp
    rw [bytesContains, bytesFind] at h
    rw [this] at h
    exact absurd h (by simp)
  · exact Bool.eq_false_iff.mpr hp

theorem bytesFindFrom_some_occ (pat : List Nat) :
    ∀ (hay : List Nat) (i : Nat), (bytesFindFrom pat hay i).isSome = true →
      ∃ j, pat.isPrefixOf (hay.drop j) = true := by
  intro hay
  induction hay with
  | nil =>
    intro i h
    rw [bytesFindFrom] at h
    by_cases hp : pat.isEmpty = true
    · refine ⟨0, ?_⟩
      rw [List.isEmpty_iff] at hp
      simp [hp, List.isPrefixOf]
    · rw [if_neg hp] at h
      exact absurd h (by simp)
  | cons b rest ih =>
    intro i h
    rw [bytesFindFrom] at h
    by_cases hp : pat.isPrefixOf (b :: rest) = true
    · exact ⟨0, hp⟩
    · rw [if_neg hp] at h
      obtain ⟨j, hj⟩ := ih (i + 1) h
      exact ⟨j + 1, by rwa [List.drop_succ_cons]⟩

theorem exists_parts_of_contains (hay pat : List Nat)
    (h : bytesContains hay pat = true) :
    ∃ a b, hay = a ++ pat ++ b := by
  rw [bytesContains, bytesFind] at h
  obtain ⟨j, hj⟩ := bytesFindFrom_some_occ pat hay 0 h
  rw [List.isPrefixOf_iff_prefix] at hj
  obtain ⟨t, ht⟩ := hj
  exact ⟨hay.take j, t, by rw [List.append_assoc, ht, List.take_append_drop]⟩

theorem bytesContains_of_parts (a pat b : List Nat) :
    bytesContains (a ++ pat ++ b) pat = true := by
  rw [bytesContains, bytesFind]
  refine bytesFindFrom_isSome_occ pat _ 0 a.length ?_
  rw [List.append_assoc, List.drop_left, List.isPrefixOf_iff_prefix]
  exact List.prefix_append pat b

theorem isPrefixOf_false_of_mismatch (pat headC rest : List Nat) (j t : Nat)
    (ht : t < pat.length) (hj : j + t < headC.length)
    (hne : headC.getD (j + t) 0 ≠ pat.getD t 0) :
    pat.isPrefixOf ((headC ++ rest).drop j) = false := by
  by_cases hp : pat.isPrefixOf ((headC ++ rest).drop j) = true
  · exfalso
    rw [List.isPrefixOf_iff_prefix] at hp
    obtain ⟨s, hs⟩ := hp
    have hget : ((headC ++ rest).drop j).getD t 0 = pat.getD t 0 := by
      rw [← hs, List.getD_append _ _ _ _ ht]
    rw [List.getD_eq_getElem?_getD, List.getElem?_drop,
      ← List.getD_eq_getElem?_getD] at hget
    rw [List.getD_append _ _ _ _ hj] at hget
    exact hne hget
  · exact Bool.eq_false_iff.mpr hp

theorem bytesFindFrom_append (pat : List Nat) :
    ∀ (head : List Nat) (tail : List Nat) (i : Nat),
      (∀ j, j < head.length →
        pat.isPrefixOf ((head ++ tail).drop j) = false) →
      bytesFindFrom pat (head ++ tail) i =
        bytesFindFrom pat tail (i + head.length) := by
  intro head
  induction head with
  | nil => intro tail i _; simp
  | cons b h' ih =>
    intro tail i hno
    have h0 := hno 0 (by simp)
    rw [List.drop_zero, List.cons_append] at h0
    rw [List.cons_append, bytesFindFrom, if_neg (by rw [h0]; decide)]
    have hrec : ∀ j, j < h'.length →
        pat.isPrefixOf ((h' ++ tail).drop j) = false := by
      intro j hj
      have := hno (j + 1) (by rw [List.length_cons]; omega)
      rwa [List.cons_append, List.drop_succ_cons] at this
    rw [ih tail (i + 1) hrec,
      show i + (b :: h').length = i + 1 + h'.length from by
        rw [List.length_cons]; omega]

theorem bytesFindFrom_here (pat hay : List Nat) (i : Nat)
    (hne : pat ≠ []) (h : pat.isPrefixOf hay = true) :
    bytesFindFrom pat hay i = some i := by
  cases hay with
  | nil =>
    cases pat with
    | nil => exact absurd rfl hne
    | cons p ps => exact absurd h (by simp [List.isPrefixOf])
  | cons b rest => rw [bytesFindFrom, if_pos h]

theorem bytesSplitLinesAux_fuel :
    ∀ (f1 : Nat) (l acc : List Nat) (f2 : Nat), l.length ≤ f1 →
      l.length ≤ f2 →
      bytesSplitLinesAux f1 acc l = bytesSplitLinesAux f2 acc l := by
  intro f1
  induction f1 with
  | zero =>
    intro l acc f2 h1 _
    obtain rfl : l = [] := List.length_eq_zero.mp (Nat.le_zero.mp h1)
    cases f2 <;> rfl
  | succ f ih =>
    intro l acc f2 h1 h2
    cases l with
    | nil => cases f2 <;> rfl
    | cons b rest =>
      rw [List.length_cons] at h1 h2
      cases f2 with
      | zero => omega
      | succ f2' =>
        rw [bytesSplitLinesAux, bytesSplitLinesAux]
        by_cases h13 : (b == 13) = true
        · rw [if_pos h13, if_pos h13]
          have hlen : (if rest.head? == some 10 then rest.tail
              else rest).length ≤ rest.length := by
            split
            · cases rest <;> simp
            · exact Nat.le_refl _
          rw [ih _ [] f2' (by omega) (by omega)]
        · rw [if_neg h13, if_neg h13]
          by_cases h10 : (b == 10) = true
          · rw [if_pos h10, if_pos h10, ih rest [] f2' (by omega) (by omega)]
          · rw [if_neg h10, if_neg h10,
              ih rest (b :: acc) f2' (by omega) (by omega)]

theorem bytesSplitLinesAux_chunk :
    ∀ (a : List Nat),
      (∀ b ∈ a, (b == 13) = false ∧ (b == 10) = false) →
      ∀ (fuel : Nat) (acc rest : List Nat),
        bytesSplitLinesAux (a.length + fuel) acc (a ++ rest) =
          bytesSplitLinesAux fuel (a.reverse ++ acc) rest := by
  intro a
  induction a with
  | nil => intro _ fuel acc rest; simp
  | cons c a' ih =>
    intro h fuel acc rest
    have hc := h c (List.mem_cons_self c a')
    rw [List.cons_append,
      show (c :: a').length + fuel = (a'.length + fuel) + 1 from by
        rw [List.length_cons]; omega,
      bytesSplitLinesAux, if_neg (by rw [hc.1]; decide),
      if_neg (by rw [hc.2]; decide),
      ih (fun b hb => h b (List.mem_cons_of_mem c hb)) fuel (c :: acc) rest]
    simp

theorem bytesSplitLinesAux_crlf (fuel : Nat) (acc rest : List Nat) :
    bytesSplitLinesAux (fuel + 1) acc (13 :: 10 :: rest) =
      acc.reverse :: bytesSplitLinesAux fuel [] rest := rfl

theorem natDigitsB_mem :
    ∀ (fuel n : Nat), ∀ b ∈ natDigitsB fuel n, 48 ≤ b ∧ b ≤ 57 := by
  intro fuel
  induction fuel with
  | zero => intro n b hb; exact absurd hb (by simp [natDigitsB])
  | succ f ih =>
    intro n b hb
    rw [natDigitsB] at hb
    by_cases h : n < 10
    · rw [if_pos h] at hb
      rw [List.mem_singleton] at hb
      omega
    · rw [if_neg h] at hb
      rcases List.mem_append.mp hb with h1 | h1
      · exact ih _ b h1
      · rw [List.mem_singleton] at h1
        have : n % 10 < 10 := Nat.mod_lt _ (by omega)
        omega

theorem pad10B_mem (n : Nat) : ∀ b ∈ pad10B n, 48 ≤ b ∧ b ≤ 57 := by
  intro b hb
  rcases List.mem_append.mp hb with h1 | h1
  · rw [List.eq_of_mem_replicate h1]
    omega
  · exact natDigitsB_mem _ _ b h1

theorem natDigitsB_ne_nil (fuel n : Nat) (h : 0 < fuel) :
    natDigitsB fuel n ≠ [] := by
  cases fuel with
  | zero => omega
  | succ f =>
    rw [natDigitsB]
    split
    · simp
    · simp

theorem pad10B_ne_nil (n : Nat) : pad10B n ≠ [] := by
  rw [pad10B]
  intro h
  rcases List.append_eq_nil.mp h with ⟨_, h2⟩
  exact natDigitsB_ne_nil _ n (Nat.succ_pos n) h2

theorem bytesToNat_digits :
    ∀ (fuel n : Nat), n < fuel → bytesToNat (natDigitsB fuel n) = n := by
  intro fuel
  induction fuel with
  | zero => intro n h; omega
  | succ f ih =>
    intro n h
    rw [natDigitsB]
    by_cases h10 : n < 10
    · rw [if_pos h10, bytesToNat, List.foldl_cons, List.foldl_nil]
      omega
    · rw [if_neg h10, bytesToNat, List.foldl_append, List.foldl_cons,
        List.foldl_nil]
      have hdiv : n / 10 < n := Nat.div_lt_self (by omega) (by omega)
      rw [show List.foldl (fun acc d => acc * 10 + (d - 48)) 0
          (natDigitsB f (n / 10)) = bytesToNat (natDigitsB f (n / 10))
        from rfl, ih (n / 10) (by omega)]
      have := Nat.div_add_mod n 10
      have : n % 10 < 10 := Nat.mod_lt _ (by omega)
      omega

theorem bytesToNat_zeros (k : Nat) (d : List Nat) :
    bytesToNat (List.replicate k 48 ++ d) = bytesToNat d := by
  induction k with
  | zero => simp
  | succ k' ih =>
    rw [List.replicate_succ, List.cons_append, bytesToNat, List.foldl_cons]
    simpa [bytesToNat] using ih

theorem bytesToNat_pad10 (n : Nat) : bytesToNat (pad10B n) = n := by
  rw [pad10B, bytesToNat_zeros, bytesToNat_digits _ n (Nat.lt_succ_self n)]

theorem bytesIsDigits_pad10 (n : Nat) : bytesIsDigits (pad10B n) = true := by
  rw [bytesIsDigits, Bool.and_eq_true]
  constructor
  · rw [Bool.not_eq_true']
    rw [List.isEmpty_eq_false_iff_exists_mem]
    rcases List.exists_mem_of_ne_nil _ (pad10B_ne_nil n) with ⟨b, hb⟩
    exact ⟨b, hb⟩
  · rw [List.all_eq_true]
    intro b hb
    have := pad10B_mem n b hb
    simp only [Bool.and_eq_true, decide_eq_true_eq]
    omega

theorem natDigitsB_length_le :
    ∀ (k fuel n : Nat), n < fuel → n < 10 ^ k → 0 < k →
      (natDigitsB fuel n).length ≤ k := by
  intro k fuel
  induction fuel generalizing k with
  | zero => intro n h; omega
  | succ f ih =>
    intro n h hk hk0
    rw [natDigitsB]
    by_cases h10 : n < 10
    · rw [if_pos h10]
      simpa using hk0
    · rw [if_neg h10, List.length_append, List.length_singleton]
      obtain ⟨k', rfl⟩ : ∃ k', k = k' + 1 := ⟨k - 1, by omega⟩
      have hk'0 : 0 < k' := by
        rcases Nat.eq_zero_or_pos k' with h0 | h0
        · subst h0
          simp at hk
          omega
        · exact h0
      have hdiv : n / 10 < n := Nat.div_lt_self (by omega) (by omega)
      have hdivk : n / 10 < 10 ^ k' := by
        rw [pow_succ] at hk
        exact Nat.div_lt_of_lt_mul (by omega)
      have := ih k' (n / 10) (by omega) hdivk hk'0
      omega

theorem pad10B_length (n : Nat) (h : n < 10 ^ 10) :
    (pad10B n).length = 10 := by
  rw [pad10B, List.length_append, List.length_replicate]
  have := natDigitsB_length_le 10 (n + 1) n (Nat.lt_succ_self n) h
    (by omega)
  omega

theorem dropWhile_all_false {p : Nat → Bool} :
    ∀ (l : List Nat), (∀ b ∈ l, p b = false) → l.dropWhile p = l := by
  intro l
  induction l with
  | nil => intro _; rfl
  | cons c t _ =>
    intro h
    have hc := h c (List.mem_cons_self c t)
    rw [List.dropWhile_cons, if_neg (by rw [hc]; exact Bool.false_ne_true)]

theorem strip_nonspace_bytes (l : List Nat)
    (h : ∀ b ∈ l, byteIsSpace b = false) : bytesStrip l = l := by
  rw [bytesStrip, dropWhile_all_false l h,
    dropWhile_all_false l.reverse (fun b hb => h b (List.mem_reverse.mp hb)),
    List.reverse_reverse]

theorem strip_nonspace_str (l : List Nat)
    (h : ∀ b ∈ l, strIsSpaceB b = false) : bytesStripStr l = l := by
  rw [bytesStripStr, dropWhile_all_false l h,
    dropWhile_all_false l.reverse (fun b hb => h b (List.mem_reverse.mp hb)),
    List.reverse_reverse]

theorem digit_nonspace (b : Nat) (h : 48 ≤ b ∧ b ≤ 57) :
    byteIsSpace b = false := by
  simp only [byteIsSpace, Bool.or_eq_false_iff, beq_eq_false_iff_ne]
  omega

theorem digit_nonspace_str (b : Nat) (h : 48 ≤ b ∧ b ≤ 57) :
    strIsSpaceB b = false := by
  rw [strIsSpaceB, digit_nonspace b h, Bool.false_or,
    Bool.and_eq_false_iff]
  right
  simp only [decide_eq_false_iff_not]
  omega

theorem digit_not_nl (b : Nat) (h : 48 ≤ b ∧ b ≤ 57) :
    (b == 13) = false ∧ (b == 10) = false := by
  constructor <;> (rw [beq_eq_false_iff_ne]; omega)

theorem splitColon_no58 (a : List Nat) (h : ∀ b ∈ a, b ≠ 58)
    (v : List Nat) : splitColon (a ++ 58 :: v) = (a, v) := by
  induction a with
  | nil => rfl
  | cons c a' ih =>
    have hc : (c == 58) = false :=
      beq_eq_false_iff_ne.mpr (h c (List.mem_cons_self c a'))
    rw [List.cons_append, splitColon,
      if_neg (by rw [hc]; exact Bool.false_ne_true),
      ih fun b hb => h b (List.mem_cons_of_mem c hb)]

theorem contains_append_left (a b : List Nat) (x : Nat)
    (h : x ∈ a) : (a ++ b).contains x = true :=
  List.elem_eq_true_of_mem (List.mem_append_left b h)

theorem metaGet?_map_set (d : MetaDict) (k v k' : List Nat) (h : k ≠ k') :
    metaGet? (d.map fun e => if e.1 = k then (k, v) else e) k' =
      metaGet? d k' := by
  induction d with
  | nil => rfl
  | cons e t ih =>
    by_cases he : e.1 = k
    · simp only [List.map_cons, metaGet?, if_pos he]
      rw [if_neg h, if_neg (by rw [he]; exact h), ih]
    · simp only [List.map_cons, metaGet?, if_neg he]
      split
      · rfl
      · exact ih

theorem metaGet?_append_ne (d : MetaDict) (k v k' : List Nat)
    (h : k ≠ k') :
    metaGet? (d ++ [(k, v)]) k' = metaGet? d k' := by
  induction d with
  | nil => simp [metaGet?, h]
  | cons e t ih =>
    simp only [List.cons_append, metaGet?]
    split
    · rfl
    · exact ih

theorem metaGet?_set_ne (d : MetaDict) (k v k' : List Nat) (h : k ≠ k') :
    metaGet? (metaSet d k v) k' = metaGet? d k' := by
  rw [metaSet]
  split
  · exact metaGet?_map_set d k v k' h
  · exact metaGet?_append_ne d k v k' h

theorem metaGet?_set_self (d : MetaDict) (k v : List Nat) :
    metaGet? (metaSet d k v) k = some v := by
  rw [metaSet]
  split
  · rename_i hs
    induction d with
    | nil => simp [metaGet?] at hs
    | cons e t ih =>
      rw [List.map_cons, metaGet?]
      by_cases he : e.1 = k
      · rw [if_pos he, if_pos rfl]
      · rw [if_neg he, if_neg he]
        rw [metaGet?, if_neg he] at hs
        exact ih hs
  · induction d with
    | nil => rw [List.nil_append, metaGet?, if_pos rfl]
    | cons e t ih =>
      rename_i hs
      rw [metaGet?] at hs
      rw [List.cons_append, metaGet?]
      by_cases he : e.1 = k
      · rw [if_pos he] at hs
        simp at hs
      · rw [if_neg he] at hs ⊢
        exact ih hs

theorem scanMetaLines_safe (k : List Nat) :
    ∀ (ls : List (List Nat)) (meta : MetaDict),
      (∀ l ∈ ls, lineKey l ≠ k) →
      metaGet? (scanMetaLines ls meta) k = metaGet? meta k := by
  intro ls
  induction ls with
  | nil => intro meta _; rfl
  | cons line rest ih =>
    intro meta h
    rw [scanMetaLines]
    split
    · rfl
    · split
      · split
        · rw [ih _ fun l hl => h l (List.mem_cons_of_mem line hl),
            metaGet?_set_ne _ _ _ _ (h line (List.mem_cons_self line rest))]
        · exact ih _ fun l hl => h l (List.mem_cons_of_mem line hl)
      · exact ih _ fun l hl => h l (List.mem_cons_of_mem line hl)

theorem asciiIgnore_pad10 (n : Nat) : asciiIgnore (pad10B n) = pad10B n := by
  rw [asciiIgnore, List.filter_eq_self]
  intro b hb
  have := pad10B_mem n b hb
  simp only [decide_eq_true_eq]
  omega

theorem stripStr_pad10 (n : Nat) : bytesStripStr (pad10B n) = pad10B n :=
  strip_nonspace_str _ fun b hb => digit_nonspace_str b (pad10B_mem n b hb)

theorem scanMetaLines_step_kv (keyPre dig : List Nat)
    (rest : List (List Nat)) (meta : MetaDict) (K V : List Nat)
    (hnb : [60, 33, 45, 45].isPrefixOf
      (bytesStrip (keyPre ++ 58 :: dig)) = false)
    (h58 : ∀ b ∈ keyPre, b ≠ 58)
    (hkey : bytesStripStr (asciiIgnore keyPre) = K)
    (hval : bytesStripStr (asciiIgnore dig) = V)
    (hKne : K ≠ []) :
    scanMetaLines ((keyPre ++ 58 :: dig) :: rest) meta =
      scanMetaLines rest (metaSet meta K V) := by
  have hkl : lineKey (keyPre ++ 58 :: dig) = K := by
    rw [lineKey, splitColon_no58 keyPre h58, hkey]
  have hvl : lineVal (keyPre ++ 58 :: dig) = V := by
    rw [lineVal, splitColon_no58 keyPre h58, hval]
  have hcont : (keyPre ++ 58 :: dig).contains 58 = true :=
    List.elem_eq_true_of_mem
      (List.mem_append_right _ (List.mem_cons_self 58 dig))
  rw [scanMetaLines, if_neg (by rw [hnb]; exact Bool.false_ne_true),
    if_pos hcont, if_pos (by rw [hkl]; exact hKne), hkl, hvl]

theorem isPrefixOf_take_len (pat l : List Nat) (n : Nat)
    (h : pat.length ≤ n) :
    pat.isPrefixOf (l.take n) = pat.isPrefixOf l := by
  by_cases hp : pat.isPrefixOf l = true
  · rw [hp]
    rw [List.isPrefixOf_iff_prefix] at hp ⊢
    rw [List.prefix_iff_eq_take] at hp ⊢
    rw [List.take_take, Nat.min_eq_left h]
    exact hp
  · rw [Bool.eq_false_iff.mpr hp, Bool.eq_false_iff]
    intro hc
    apply hp
    rw [List.isPrefixOf_iff_prefix] at hc ⊢
    rw [List.prefix_iff_eq_take] at hc ⊢
    rw [List.take_take, Nat.min_eq_left h] at hc
    exact hc

theorem sm_find (tail : List Nat) :
    bytesFindFrom SMb (wrapPreB ++ (SMb ++ tail)) 0 = some 47 := by
  have hconc : ∀ j < 47,
      SMb.isPrefixOf (((wrapPreB ++ SMb).drop j).take 20) = false := by
    decide
  have hA : (wrapPreB ++ SMb).length = 67 := by decide
  have h47 : wrapPreB.length = 47 := by decide
  have hno : ∀ j, j < wrapPreB.length →
      SMb.isPrefixOf ((wrapPreB ++ (SMb ++ tail)).drop j) = false := by
    intro j hj
    rw [show wrapPreB ++ (SMb ++ tail) = (wrapPreB ++ SMb) ++ tail from by
      rw [List.append_assoc]]
    have hdl : ((wrapPreB ++ SMb).drop j).length = 67 - j := by
      rw [List.length_drop, hA]
    rw [← isPrefixOf_take_len SMb _ 20 (by decide),
      List.drop_append_of_le_length (by omega),
      List.take_append_of_le_length (by omega)]
    exact hconc j (by omega)
  rw [bytesFindFrom_append SMb wrapPreB (SMb ++ tail) 0 hno,
    bytesFindFrom_here SMb (SMb ++ tail) _ (by decide)
      (by rw [List.isPrefixOf_iff_prefix]; exact List.prefix_append _ _)]
  rw [show (0 + wrapPreB.length) = 47 from by decide]

theorem em_no_occ_in_mid (mid tail : List Nat)
    (h : bytesContains (mid ++ EMb.dropLast) EMb = false) :
    ∀ j, j < mid.length →
      EMb.isPrefixOf ((mid ++ (EMb ++ tail)).drop j) = false := by
  intro j hj
  have h1 := bytesContains_false_no_occ _ _ h j
  rw [← isPrefixOf_take_len EMb _ 18 (by decide)] at h1 ⊢
  have hwin : ((mid ++ (EMb ++ tail)).drop j).take 18 =
      ((mid ++ EMb.dropLast).drop j).take 18 := by
    rw [List.drop_append_of_le_length (le_of_lt hj),
      List.drop_append_of_le_length (le_of_lt hj)]
    rw [List.take_append_eq_append_take]
    conv_rhs => rw [List.take_append_eq_append_take]
    congr 1
    have hdl : (mid.drop j).length = mid.length - j := by simp
    have hk : 18 - (mid.drop j).length ≤ 17 := by omega
    have hEM : EMb.length = 18 := by decide
    rw [List.take_append_eq_append_take,
      show 18 - (mid.drop j).length - EMb.length = 0 from by omega,
      List.take_zero, List.append_nil]
    have hsame : ∀ k' < 18, EMb.take k' = EMb.dropLast.take k' := by decide
    exact hsame _ (by omega)
  rw [hwin]
  exact h1

theorem em_find (mid tail : List Nat)
    (hno : ∀ j, j < mid.length →
      EMb.isPrefixOf ((mid ++ (EMb ++ tail)).drop j) = false) :
    bytesFindFrom EMb (wrapPreB ++ (SMb ++ (mid ++ (EMb ++ tail)))) 0 =
      some (67 + mid.length) := by
  have hA : (wrapPreB ++ SMb).length = 67 := by decide
  have hEMl : EMb.length = 18 := by decide
  have hmis : ∀ j < 67,
      ((if j = 47 then 4
        else if (wrapPreB ++ SMb).getD j 0 = 60 then 1 else 0) < 18 ∧
       j + (if j = 47 then 4
        else if (wrapPreB ++ SMb).getD j 0 = 60 then 1 else 0) < 67 ∧
       (wrapPreB ++ SMb).getD
          (j + (if j = 47 then 4
            else if (wrapPreB ++ SMb).getD j 0 = 60 then 1 else 0)) 0 ≠
         EMb.getD (if j = 47 then 4
            else if (wrapPreB ++ SMb).getD j 0 = 60 then 1 else 0) 0) := by
    decide
  have hhead : ∀ j, j < (wrapPreB ++ SMb).length →
      EMb.isPrefixOf
        (((wrapPreB ++ SMb) ++ (mid ++ (EMb ++ tail))).drop j) = false := by
    intro j hj
    have hj67 : j < 67 := by omega
    obtain ⟨ht, hjt, hne⟩ := hmis j hj67
    exact isPrefixOf_false_of_mismatch EMb (wrapPreB ++ SMb) _ j _
      (by omega) (by omega) hne
  rw [show wrapPreB ++ (SMb ++ (mid ++ (EMb ++ tail))) =
      (wrapPreB ++ SMb) ++ (mid ++ (EMb ++ tail)) from by
    rw [List.append_assoc]]
  rw [bytesFindFrom_append EMb (wrapPreB ++ SMb) _ 0 hhead]
  rw [bytesFindFrom_append EMb mid (EMb ++ tail) _ hno]
  rw [bytesFindFrom_here EMb (EMb ++ tail) _ (by decide)
    (by rw [List.isPrefixOf_iff_prefix]; exact List.prefix_append _ _)]
  rw [hA]

theorem bytesSplitLinesAux_cline (pre : List Nat) (fuel : Nat)
    (rest : List Nat)
    (hpre : ∀ b ∈ pre, (b == 13) = false ∧ (b == 10) = false) :
    bytesSplitLinesAux (pre.length + (fuel + 1)) []
        (pre ++ (13 :: 10 :: rest)) =
      pre :: bytesSplitLinesAux fuel [] rest := by
  rw [bytesSplitLinesAux_chunk pre hpre (fuel + 1) [] (13 :: 10 :: rest),
    bytesSplitLinesAux_crlf]
  simp

theorem bytesSplitLinesAux_hline (pre dig : List Nat) (fuel : Nat)
    (rest : List Nat)
    (hpre : ∀ b ∈ pre, (b == 13) = false ∧ (b == 10) = false)
    (hdig : ∀ b ∈ dig, 48 ≤ b ∧ b ≤ 57) :
    bytesSplitLinesAux (pre.length + (dig.length + (fuel + 1))) []
        (pre ++ (dig ++ (13 :: 10 :: rest))) =
      (pre ++ dig) :: bytesSplitLinesAux fuel [] rest := by
  rw [bytesSplitLinesAux_chunk pre hpre (dig.length + (fuel + 1)) []
      (dig ++ (13 :: 10 :: rest)),
    bytesSplitLinesAux_chunk dig (fun b hb => digit_not_nl b (hdig b hb))
      (fuel + 1) (pre.reverse ++ []) (13 :: 10 :: rest),
    bytesSplitLinesAux_crlf]
  simp

theorem utf8Encode_append (a b : List Nat) :
    utf8Encode (a ++ b) = utf8Encode a ++ utf8Encode b := by
  simp [utf8Encode]

/-- C10 (amended): for every HTML string (as valid code points) that
contains no end marker — not even one completed by a prefix of an adjacent
marker —, whose wrapped document body has no line the header scan would
read as a `StartFragment` or `EndFragment` entry, and whose size keeps the
ten-digit offsets exact, the header offsets of `_build_cf_html` delimit
exactly the UTF-8 encoding of the input and `_extract_html_fragment_bytes`
returns the input unchanged. -/
theorem C10_cf_html_round_trip (html : List Nat)
    (hv : ∀ n ∈ html, ValidCp n)
    (hnoEM : bytesContains (utf8Encode html ++ EMb.dropLast) EMb = false)
    (hsafe : ∀ line ∈ bytesSplitLines
      (wrapPreB ++ (SMb ++ (utf8Encode html ++ (EMb ++ wrapSufB)))),
      lineKey line ≠ kStartFragment ∧ lineKey line ≠ kEndFragment)
    (hlen : (utf8Encode html).length + 204 < 10 ^ 10) :
    _extract_html_fragment_bytes (_build_cf_html html) = html := by
  have hpow : (10 : Nat) ^ 10 = 10000000000 := by norm_num
  rw [hpow] at hlen
  have hw : utf8Encode wrapPreB = wrapPreB := by decide
  have hsmE : utf8Encode SMb = SMb := by decide
  have hemE : utf8Encode EMb = EMb := by decide
  have hsufE : utf8Encode wrapSufB = wrapSufB := by decide
  have h105 : (cfHeaderB 0 0 0 0).length = 105 := by decide
  have hwl : wrapPreB.length = 47 := by decide
  have hsml : SMb.length = 20 := by decide
  have heml : EMb.length = 18 := by decide
  have hsufl : wrapSufB.length = 14 := by decide
  have hcpEM : bytesContains html EMb = false := by
    by_cases hc : bytesContains html EMb = true
    · exfalso
      obtain ⟨a, b, hab⟩ := exists_parts_of_contains html EMb hc
      have henc : utf8Encode html =
          utf8Encode a ++ ((EMb ++ utf8Encode b) ++ []) := by
        rw [hab, List.append_assoc, utf8Encode_append, utf8Encode_append,
          hemE, List.append_nil]
      have hocc : EMb.isPrefixOf
          ((utf8Encode html ++ EMb.dropLast).drop
            (utf8Encode a).length) = true := by
        rw [henc, List.append_nil, List.append_assoc, List.drop_left,
          List.append_assoc, List.isPrefixOf_iff_prefix]
        exact List.prefix_append EMb _
      have hfalse := bytesContains_false_no_occ _ _ hnoEM
        (utf8Encode a).length
      rw [hocc] at hfalse
      exact absurd hfalse (by simp)
    · exact Bool.eq_false_iff.mpr hc
  have hcond : (bytesContains html SMb && bytesContains html EMb)
      = false := by
    rw [hcpEM, Bool.and_false]
  have hdocLen : (wrapPreB ++ (SMb ++ (utf8Encode html ++
      (EMb ++ wrapSufB)))).length = (utf8Encode html).length + 99 := by
    simp only [List.length_append, hwl, hsml, heml, hsufl]
    omega
  have hfindSM : bytesFind (wrapPreB ++ (SMb ++ (utf8Encode html ++
      (EMb ++ wrapSufB)))) SMb = some 47 := sm_find _
  have hfindEM : bytesFind (wrapPreB ++ (SMb ++ (utf8Encode html ++
      (EMb ++ wrapSufB)))) EMb =
      some (67 + (utf8Encode html).length) :=
    em_find _ _ (em_no_occ_in_mid _ _ hnoEM)
  have hfrag : cfFragRange 105 (105 + ((utf8Encode html).length + 99))
      (some 47) (some (67 + (utf8Encode html).length)) =
      (172, 105 + (67 + (utf8Encode html).length)) := by
    rw [cfFragRange, if_neg (by omega), hsml]
  have hb : _build_cf_html html =
      cfHeaderB 105 (105 + ((utf8Encode html).length + 99)) 172
          (105 + (67 + (utf8Encode html).length)) ++
        (wrapPreB ++ (SMb ++ (utf8Encode html ++ (EMb ++ wrapSufB)))) := by
    simp only [_build_cf_html]
    rw [hcond, if_neg (show ¬(false = true) from by decide)]
    simp only [utf8Encode_append, hw, hsmE, hemE, hsufE, h105]
    rw [show wrapPreB ++ SMb ++ utf8Encode html ++ EMb ++ wrapSufB =
      wrapPreB ++ (SMb ++ (utf8Encode html ++ (EMb ++ wrapSufB))) from by
      simp [List.append_assoc]]
    rw [hdocLen, hfindSM, hfindEM, hfrag]
  have hp1 : (pad10B 105).length = 10 := pad10B_length _ (by norm_num)
  have hp2 : (pad10B (105 + ((utf8Encode html).length + 99))).length
      = 10 := pad10B_length _ (by rw [hpow]; omega)
  have hp3 : (pad10B 172).length = 10 := pad10B_length _ (by norm_num)
  have hp4 : (pad10B (105 + (67 + (utf8Encode html).length))).length
      = 10 := pad10B_length _ (by rw [hpow]; omega)
  have hhdrLen : (cfHeaderB 105 (105 + ((utf8Encode html).length + 99))
      172 (105 + (67 + (utf8Encode html).length))).length = 105 := by
    have e1 : (asciiBytes "Version:1.0").length = 11 := by decide
    have e2 : (asciiBytes "StartHTML:").length = 10 := by decide
    have e3 : (asciiBytes "EndHTML:").length = 8 := by decide
    have e4 : (asciiBytes "StartFragment:").length = 14 := by decide
    have e5 : (asciiBytes "EndFragment:").length = 12 := by decide
    simp only [cfHeaderB, List.length_append, e1, e2, e3, e4, e5, hp1,
      hp2, hp3, hp4, List.length_cons, List.length_nil]
  have hVnl : ∀ b ∈ asciiBytes "Version:1.0",
      (b == 13) = false ∧ (b == 10) = false := by decide
  have hSHnl : ∀ b ∈ asciiBytes "StartHTML:",
      (b == 13) = false ∧ (b == 10) = false := by decide
  have hEHnl : ∀ b ∈ asciiBytes "EndHTML:",
      (b == 13) = false ∧ (b == 10) = false := by decide
  have hSFnl : ∀ b ∈ asciiBytes "StartFragment:",
      (b == 13) = false ∧ (b == 10) = false := by decide
  have hEFnl : ∀ b ∈ asciiBytes "EndFragment:",
      (b == 13) = false ∧ (b == 10) = false := by decide
  have hlines : bytesSplitLines (_build_cf_html html) =
      (asciiBytes "Version:1.0") ::
      (asciiBytes "StartHTML:" ++ pad10B 105) ::
      (asciiBytes "EndHTML:" ++
        pad10B (105 + ((utf8Encode html).length + 99))) ::
      (asciiBytes "StartFragment:" ++ pad10B 172) ::
      (asciiBytes "EndFragment:" ++
        pad10B (105 + (67 + (utf8Encode html).length))) ::
      bytesSplitLines (wrapPreB ++ (SMb ++ (utf8Encode html ++
        (EMb ++ wrapSufB)))) := by
    rw [hb, bytesSplitLines,
      show (cfHeaderB 105 (105 + ((utf8Encode html).length + 99)) 172
          (105 + (67 + (utf8Encode html).length)) ++
        (wrapPreB ++ (SMb ++ (utf8Encode html ++
          (EMb ++ wrapSufB))))).length =
        (asciiBytes "Version:1.0").length +
          ((192 + (utf8Encode html).length) + 1) from by
        have e1 : (asciiBytes "Version:1.0").length = 11 := by decide
        rw [List.length_append, hhdrLen, hdocLen, e1]
        omega]
    rw [cfHeaderB]
    simp only [List.append_assoc, List.cons_append, List.nil_append]
    rw [bytesSplitLinesAux_cline _ _ _ hVnl]
    rw [show 192 + (utf8Encode html).length =
        (asciiBytes "StartHTML:").length + ((pad10B 105).length +
          ((171 + (utf8Encode html).length) + 1)) from by
      have e2 : (asciiBytes "StartHTML:").length = 10 := by decide
      omega]
    rw [bytesSplitLinesAux_hline _ _ _ _ hSHnl (pad10B_mem 105)]
    rw [show 171 + (utf8Encode html).length =
        (asciiBytes "EndHTML:").length +
          ((pad10B (105 + ((utf8Encode html).length + 99))).length +
          ((152 + (utf8Encode html).length) + 1)) from by
      have e3 : (asciiBytes "EndHTML:").length = 8 := by decide
      omega]
    rw [bytesSplitLinesAux_hline _ _ _ _ hEHnl (pad10B_mem _)]
    rw [show 152 + (utf8Encode html).length =
        (asciiBytes "StartFragment:").length + ((pad10B 172).length +
          ((127 + (utf8Encode html).length) + 1)) from by
      have e4 : (asciiBytes "StartFragment:").length = 14 := by decide
      omega]
    rw [bytesSplitLinesAux_hline _ _ _ _ hSFnl (pad10B_mem 172)]
    rw [show 127 + (utf8Encode html).length =
        (asciiBytes "EndFragment:").length +
          ((pad10B (105 + (67 + (utf8Encode html).length))).length +
          ((104 + (utf8Encode html).length) + 1)) from by
      have e5 : (asciiBytes "EndFragment:").length = 12 := by decide
      omega]
    rw [bytesSplitLinesAux_hline _ _ _ _ hEFnl (pad10B_mem _)]
    rw [bytesSplitLinesAux_fuel (104 + (utf8Encode html).length)
      (wrapPreB ++ (SMb ++ (utf8Encode html ++ (EMb ++ wrapSufB)))) []
      (wrapPreB ++ (SMb ++ (utf8Encode html ++
        (EMb ++ wrapSufB)))).length
      (by rw [hdocLen]; omega) (Nat.le_refl _)]
    rw [show bytesSplitLinesAux (wrapPreB ++ (SMb ++ (utf8Encode html ++
        (EMb ++ wrapSufB)))).length []
        (wrapPreB ++ (SMb ++ (utf8Encode html ++ (EMb ++ wrapSufB)))) =
      bytesSplitLines (wrapPreB ++ (SMb ++ (utf8Encode html ++
        (EMb ++ wrapSufB)))) from rfl]
  have hnbline : ∀ (kp : List Nat) (n : Nat),
      (∀ b ∈ kp, byteIsSpace b = false) →
      ∀ b ∈ kp ++ 58 :: pad10B n, byteIsSpace b = false := by
    intro kp n hkp b hb
    rcases List.mem_append.mp hb with h | h
    · exact hkp b h
    · rcases List.mem_cons.mp h with h | h
      · subst h
        decide
      · exact digit_nonspace b (pad10B_mem n b h)
  have hSHsplit : ∀ pd : List Nat,
      asciiBytes "StartHTML:" ++ pd = asciiBytes "StartHTML" ++ 58 :: pd :=
    fun pd => by
      rw [show asciiBytes "StartHTML:" = asciiBytes "StartHTML" ++ [58]
        from by decide, List.append_assoc, List.singleton_append]
  have hEHsplit : ∀ pd : List Nat,
      asciiBytes "EndHTML:" ++ pd = asciiBytes "EndHTML" ++ 58 :: pd :=
    fun pd => by
      rw [show asciiBytes "EndHTML:" = asciiBytes "EndHTML" ++ [58]
        from by decide, List.append_assoc, List.singleton_append]
  have hSFsplit : ∀ pd : List Nat,
      asciiBytes "StartFragment:" ++ pd =
        asciiBytes "StartFragment" ++ 58 :: pd :=
    fun pd => by
      rw [show asciiBytes "StartFragment:" =
        asciiBytes "StartFragment" ++ [58] from by decide,
        List.append_assoc, List.singleton_append]
  have hEFsplit : ∀ pd : List Nat,
      asciiBytes "EndFragment:" ++ pd =
        asciiBytes "EndFragment" ++ 58 :: pd :=
    fun pd => by
      rw [show asciiBytes "EndFragment:" =
        asciiBytes "EndFragment" ++ [58] from by decide,
        List.append_assoc, List.singleton_append]
  have hpadval : ∀ n : Nat,
      bytesStripStr (asciiIgnore (pad10B n)) = pad10B n := fun n => by
    rw [asciiIgnore_pad10, stripStr_pad10]
  have hm5 : scanMetaLines (bytesSplitLines (_build_cf_html html)) [] =
      scanMetaLines (bytesSplitLines (wrapPreB ++ (SMb ++
          (utf8Encode html ++ (EMb ++ wrapSufB)))))
        (metaSet (metaSet (metaSet (metaSet (metaSet []
          (asciiBytes "Version") (asciiBytes "1.0"))
          kStartHTML (pad10B 105))
          kEndHTML (pad10B (105 + ((utf8Encode html).length + 99))))
          kStartFragment (pad10B 172))
          kEndFragment (pad10B (105 + (67 + (utf8Encode html).length)))) := by
    rw [hlines]
    rw [show asciiBytes "Version:1.0" =
      asciiBytes "Version" ++ 58 :: asciiBytes "1.0" from by decide]
    rw [scanMetaLines_step_kv (asciiBytes "Version") (asciiBytes "1.0")
      _ _ (asciiBytes "Version") (asciiBytes "1.0") (by decide)
      (by decide) (by decide) (by decide) (by decide)]
    rw [hSHsplit, scanMetaLines_step_kv (asciiBytes "StartHTML")
      (pad10B 105) _ _ kStartHTML (pad10B 105)
      (by rw [strip_nonspace_bytes _ (hnbline _ 105 (by decide))]; rfl)
      (by decide) (by decide) (hpadval 105) (by decide)]
    rw [hEHsplit, scanMetaLines_step_kv (asciiBytes "EndHTML")
      (pad10B (105 + ((utf8Encode html).length + 99))) _ _ kEndHTML
      (pad10B (105 + ((utf8Encode html).length + 99)))
      (by rw [strip_nonspace_bytes _ (hnbline _ _ (by decide))]; rfl)
      (by decide) (by decide) (hpadval _) (by decide)]
    rw [hSFsplit, scanMetaLines_step_kv (asciiBytes "StartFragment")
      (pad10B 172) _ _ kStartFragment (pad10B 172)
      (by rw [strip_nonspace_bytes _ (hnbline _ 172 (by decide))]; rfl)
      (by decide) (by decide) (hpadval 172) (by decide)]
    rw [hEFsplit, scanMetaLines_step_kv (asciiBytes "EndFragment")
      (pad10B (105 + (67 + (utf8Encode html).length))) _ _ kEndFragment
      (pad10B (105 + (67 + (utf8Encode html).length)))
      (by rw [strip_nonspace_bytes _ (hnbline _ _ (by decide))]; rfl)
      (by decide) (by decide) (hpadval _) (by decide)]
  have hsf : metaGet? (scanMetaLines
      (bytesSplitLines (_build_cf_html html)) []) kStartFragment =
      some (pad10B 172) := by
    rw [hm5, scanMetaLines_safe kStartFragment _ _
        (fun l hl => (hsafe l hl).1),
      metaGet?_set_ne _ _ _ _ (by decide), metaGet?_set_self]
  have hef : metaGet? (scanMetaLines
      (bytesSplitLines (_build_cf_html html)) []) kEndFragment =
      some (pad10B (105 + (67 + (utf8Encode html).length))) := by
    rw [hm5, scanMetaLines_safe kEndFragment _ _
        (fun l hl => (hsafe l hl).2),
      metaGet?_set_self]
  have hblen : (_build_cf_html html).length =
      105 + ((utf8Encode html).length + 99) := by
    rw [hb, List.length_append, hhdrLen, hdocLen]
  have hdirect : cfDirectSlice (_build_cf_html html) (pad10B 172)
      (pad10B (105 + (67 + (utf8Encode html).length))) = some html := by
    rw [cfDirectSlice, bytesIsDigits_pad10, bytesIsDigits_pad10,
      bytesToNat_pad10, bytesToNat_pad10]
    rw [if_pos (show (true && true) = true from rfl)]
    rw [if_pos (show 172 ≤ 105 + (67 + (utf8Encode html).length) ∧
        105 + (67 + (utf8Encode html).length) ≤
          (_build_cf_html html).length from
      ⟨by omega, by rw [hblen]; omega⟩)]
    rw [hb]
    rw [show cfHeaderB 105 (105 + ((utf8Encode html).length + 99)) 172
        (105 + (67 + (utf8Encode html).length)) ++
        (wrapPreB ++ (SMb ++ (utf8Encode html ++ (EMb ++ wrapSufB)))) =
      ((cfHeaderB 105 (105 + ((utf8Encode html).length + 99)) 172
        (105 + (67 + (utf8Encode html).length)) ++ wrapPreB) ++ SMb) ++
        (utf8Encode html ++ (EMb ++ wrapSufB)) from by
      simp [List.append_assoc]]
    have hXlen : (((cfHeaderB 105 (105 + ((utf8Encode html).length + 99))
        172 (105 + (67 + (utf8Encode html).length)) ++ wrapPreB) ++
        SMb)).length = 172 := by
      simp only [List.length_append, hhdrLen, hwl, hsml]
    rw [List.take_append_eq_append_take,
      List.take_of_length_le (by rw [hXlen]; omega), hXlen,
      show 105 + (67 + (utf8Encode html).length) - 172 =
        (utf8Encode html).length from by omega,
      List.take_left, List.drop_left' hXlen, utf8_roundtrip html hv]
  simp only [_extract_html_fragment_bytes]
  rw [hsf, hef, Option.getD_some, Option.getD_some, hdirect]

/-- Witness for C10: the round-trip theorem applied to the concrete
fragment "hello <b>world</b>". -/
theorem C10_cf_html_round_trip_witness :
    _extract_html_fragment_bytes
        (_build_cf_html (asciiBytes "hello <b>world</b>")) =
      asciiBytes "hello <b>world</b>" :=
  C10_cf_html_round_trip (asciiBytes "hello <b>world</b>")
    (by decide) (by decide) (by decide) (by decide)

end PasteMD
